import Mathlib

/-!
# hardware-kvm: serial packet decoder to USB HID reports

A shallow embedding of `esp_device/main/idf-testing.c` and
`esp_device/main/key_types.c`.

Conventions of the embedding

* C globals (`_buttons`, `_x`, `_y`, `server_button_state`, `key_report`,
  `table`) are the fields of `State`; every C function that touches them takes
  a `State` and returns the next one.
* A C array is an index-to-value map `Nat → Nat`; only the indices below the
  declared size belong to the array.  An access whose index is not a compile
  time constant is guarded by the declared size and yields a `Fault` when the
  index is outside, because C gives such an access no meaning.
* The UART receive queue is the list `State.rx`; `uart_read_bytes` takes up to
  the requested number of bytes from its front.
* The USB side is the list `State.sent` of the reports handed to TinyUSB, the
  oldest first.
* Logging and the status LED touch nothing of the above and are left out.
-/

namespace HardwareKvm

set_option maxRecDepth 100000

/-! ## Machine integers -/

/-- Conversion of an integer to `uint8_t`. -/
def to_uint8 (v : Int) : Nat := (v % 256).toNat

/-- Conversion of an integer to `int8_t` (two's complement wrap, as gcc does). -/
def to_int8 (v : Int) : Int :=
  if v % 256 < 128 then v % 256 else v % 256 - 256

/-- Conversion of an integer to `int16_t` (two's complement wrap). -/
def to_int16 (v : Int) : Int :=
  if v % 65536 < 32768 then v % 65536 else v % 65536 - 65536

/-- The expression `buf[0] << 8 | buf[1]` over a two byte buffer, as an `int`. -/
def word_of (buf : List Nat) : Nat :=
  (buf.getD 0 0) <<< 8 ||| (buf.getD 1 0)

/-- The same expression stored into a `uint16_t`. -/
def be16 (buf : List Nat) : Nat := word_of buf % 65536

/-! ## Faults -/

/-- The ways in which an execution of the C code leaves defined behaviour. -/
inductive Fault where
  /-- `table[id]` with `id` outside the 0x200 entries of `table`. -/
  | table_index
  /-- `server_button_state[button]` with `button` outside its 0x200 entries. -/
  | button_state_index
  /-- `1 << (button - 1)` with a negative count or one that overflows `int`. -/
  | shift_count
  deriving DecidableEq, Repr

/-! ## Reports and state -/

/-- The packed struct `hid_abs_mouse_report_t`. -/
structure hid_abs_mouse_report_t where
  buttons : Nat
  x : Nat
  y : Nat
  wheel : Int
  pan : Int
  deriving DecidableEq, Repr

/-- A report handed to TinyUSB: `tud_hid_n_report(0, HID_ITF_PROTOCOL_MOUSE, ..)`
or `tud_hid_keyboard_report(HID_ITF_PROTOCOL_KEYBOARD, modifier, keycode)`. -/
inductive Report where
  | mouse (report : hid_abs_mouse_report_t)
  | keyboard (modifier : Nat) (keycode : List Nat)
  deriving DecidableEq, Repr

/-- The globals of the firmware together with the two transports. -/
structure State where
  /-- Bytes waiting in the UART receive queue. -/
  rx : List Nat
  /-- `uint8_t table[0x200]` of `key_types.c`. -/
  table : Nat → Nat
  /-- `static uint8_t _buttons`. -/
  _buttons : Nat
  /-- `static uint16_t _x`. -/
  _x : Nat
  /-- `static uint16_t _y`. -/
  _y : Nat
  /-- `static uint8_t server_button_state[0x200]`. -/
  server_button_state : Nat → Nat
  /-- `static uint8_t key_report[6]`. -/
  key_report : Nat → Nat
  /-- Reports handed to TinyUSB so far. -/
  sent : List Report

/-! ## Transport -/

/-- The call `uart_read_bytes(port, buf, length, ticks)`: the bytes copied into
`buf` (at most `length`, fewer when the queue runs dry) and the remaining
queue.  The returned `len` of the C call is the length of the first list. -/
def uart_read_bytes (rx : List Nat) (length : Nat) : List Nat × List Nat :=
  (rx.take length, rx.drop length)

/-! ## Mouse reports -/

def POINTER_POS_MIN_VAL : Nat := 1

def POINTER_POS_MAX_VAL : Nat := 32767

def usb_hid_move_to_pos (x y : Nat) (s : State) : State :=
  { s with
    _x := x
    _y := y
    sent := s.sent ++
      [Report.mouse { buttons := s._buttons, x := x, y := y, wheel := 0, pan := 0 }] }

def set_mouse_buttons (buttons : Nat) (s : State) : State :=
  { s with _buttons := buttons }

/-- The statement `_buttons = _buttons & ~buttons`, the complement taken on the
promoted 32 bit operand and the result stored into a `uint8_t`. -/
def unset_mouse_buttons (buttons : Nat) (s : State) : State :=
  { s with _buttons := (s._buttons &&& (0xFFFFFFFF ^^^ buttons)) % 256 }

def usb_hid_mouse_button (buttons : Nat) (s : State) : State :=
  let s1 := set_mouse_buttons buttons s
  usb_hid_move_to_pos s1._x s1._y s1

def usb_hid_mouse_button_up (buttons : Nat) (s : State) : State :=
  let s1 := unset_mouse_buttons buttons s
  usb_hid_move_to_pos s1._x s1._y s1

def usb_hid_mouse_wheel (scroll pan : Int) (s : State) : State :=
  { s with
    sent := s.sent ++
      [Report.mouse
        { buttons := s._buttons, x := s._x, y := s._y, wheel := scroll, pan := pan }] }

/-! ## Packet handlers -/

def handle_abs (s : State) : State :=
  let r1 := uart_read_bytes s.rx 2
  if r1.1.length ≠ 2 then { s with rx := r1.2 } else
  let x := be16 r1.1
  let r2 := uart_read_bytes r1.2 2
  if r2.1.length ≠ 2 then { s with rx := r2.2 } else
  let y := be16 r2.1
  usb_hid_move_to_pos x y { s with rx := r2.2 }

/-- Converts synergy mouse number to bit: takes an `int8_t`, returns `uint8_t`. -/
def map_mouse_button (msg : Int) : Nat :=
  to_uint8
    (if msg = 0 then 0
     else if msg = 1 then 1
     else if msg = 2 then 3
     else if msg = 3 then 2
     else msg)

/-- The expression `1 << count` on `int`: defined for counts 0..30 only. -/
def shl_one (count : Int) : Except Fault Nat :=
  if 0 ≤ count ∧ count < 31 then .ok (1 <<< count.toNat) else .error Fault.shift_count

def handle_mouse_down (s : State) : Except Fault State :=
  let r := uart_read_bytes s.rx 1
  if r.1.length ≠ 1 then .ok { s with rx := r.2 } else
  let msg_button := to_int8 (r.1.getD 0 0)
  let button := map_mouse_button msg_button
  match shl_one ((button : Int) - 1) with
  | .error e => .error e
  | .ok bits => .ok (usb_hid_mouse_button (bits % 256) { s with rx := r.2 })

def handle_mouse_up (s : State) : Except Fault State :=
  let r := uart_read_bytes s.rx 1
  if r.1.length ≠ 1 then .ok { s with rx := r.2 } else
  let msg_button := to_int8 (r.1.getD 0 0)
  let button := map_mouse_button msg_button
  match shl_one ((button : Int) - 1) with
  | .error e => .error e
  | .ok bits => .ok (usb_hid_mouse_button_up (bits % 256) { s with rx := r.2 })

/-- The lookup `table[id]` of `synergy_to_hid`. -/
def synergy_to_hid (table : Nat → Nat) (id : Nat) : Except Fault Nat :=
  if id < 0x200 then .ok (table id) else .error Fault.table_index

/-- The six bytes of `key_report` as they are copied into a keyboard report. -/
def report_bytes (key_report : Nat → Nat) : List Nat :=
  (List.range 6).map key_report

/-- The loop `for (i = 0; i < 6; i++) if (key_report[i] == 0) { key_report[i] = key; break; }`
from index `i` with `n` iterations left. -/
def key_down_loop (key : Nat) (key_report : Nat → Nat) (i : Nat) : Nat → (Nat → Nat)
  | 0 => key_report
  | n + 1 =>
    if key_report i = 0 then Function.update key_report i key
    else key_down_loop key key_report (i + 1) n

/-- The loop `for (i = 0; i < 6; i++) if (key_report[i] == key) { key_report[i] = 0; goto done; }`
from index `i` with `n` iterations left. -/
def key_up_loop (key : Nat) (key_report : Nat → Nat) (i : Nat) : Nat → (Nat → Nat)
  | 0 => key_report
  | n + 1 =>
    if key_report i = key then Function.update key_report i 0
    else key_up_loop key key_report (i + 1) n

def handle_key_down (s : State) : Except Fault State :=
  let r1 := uart_read_bytes s.rx 2
  if r1.1.length ≠ 2 then .ok { s with rx := r1.2 } else
  let id := be16 r1.1
  let r2 := uart_read_bytes r1.2 2
  if r2.1.length ≠ 2 then .ok { s with rx := r2.2 } else
  let r3 := uart_read_bytes r2.2 2
  if r3.1.length ≠ 2 then .ok { s with rx := r3.2 } else
  let button := be16 r3.1
  match synergy_to_hid s.table id with
  | .error e => .error e
  | .ok key =>
    if key = 0 then .ok { s with rx := r3.2 } else
    if ¬ button < 0x200 then .error Fault.button_state_index else
    if s.server_button_state button = key then .ok { s with rx := r3.2 } else
    let key_report := key_down_loop key s.key_report 0 6
    .ok { s with
          rx := r3.2
          server_button_state := Function.update s.server_button_state button key
          key_report := key_report
          sent := s.sent ++ [Report.keyboard 0 (report_bytes key_report)] }

/-- The `static uint8_t empty_key_report[6] = {0}` of `handle_key_up`. -/
def empty_key_report : Nat → Nat := fun _ => 0

def handle_key_up (s : State) : Except Fault State :=
  let r1 := uart_read_bytes s.rx 2
  if r1.1.length ≠ 2 then .ok { s with rx := r1.2 } else
  let r2 := uart_read_bytes r1.2 2
  if r2.1.length ≠ 2 then .ok { s with rx := r2.2 } else
  let r3 := uart_read_bytes r2.2 2
  if r3.1.length ≠ 2 then .ok { s with rx := r3.2 } else
  let button := be16 r3.1
  if ¬ button < 0x200 then .error Fault.button_state_index else
  let key := s.server_button_state button
  .ok { s with
        rx := r3.2
        server_button_state := Function.update s.server_button_state button 0
        key_report := key_up_loop key s.key_report 0 6
        sent := s.sent ++ [Report.keyboard 0 (report_bytes empty_key_report)] }

def handle_mouse_wheel (s : State) : State :=
  let r1 := uart_read_bytes s.rx 2
  if r1.1.length ≠ 2 then { s with rx := r1.2 } else
  let x_delta := to_int16 (Int.tdiv (to_int16 (word_of r1.1)) 120)
  let r2 := uart_read_bytes r1.2 2
  if r2.1.length ≠ 2 then { s with rx := r2.2 } else
  let y_delta := to_int16 (Int.tdiv (to_int16 (word_of r2.1)) 120)
  usb_hid_mouse_wheel (to_int8 y_delta) (to_int8 x_delta) { s with rx := r2.2 }

/-! ## Dispatch -/

/-- One call of `read_packet`; the `enum PacketKind` tags are 0..7 in the order
AbsMove, MouseDown, MouseUp, KeyDownEvent, KeyUpEvent, MouseWheel, MouseEnter,
MouseLeave. -/
def read_packet (s : State) : Except Fault State :=
  let r := uart_read_bytes s.rx 1
  if r.1.length = 0 then .ok s else
  let kind := r.1.getD 0 0
  let s1 : State := { s with rx := r.2 }
  match kind with
  | 0 => .ok (handle_abs s1)
  | 1 => handle_mouse_down s1
  | 2 => handle_mouse_up s1
  | 3 => handle_key_down s1
  | 4 => handle_key_up s1
  | 5 => .ok (handle_mouse_wheel s1)
  | 6 => .ok s1
  | 7 =>
    let nx := if s1._x > POINTER_POS_MAX_VAL / 2 then POINTER_POS_MAX_VAL
              else POINTER_POS_MIN_VAL
    .ok (usb_hid_move_to_pos nx s1._y s1)
  | _ => .ok s1

/-! ## Key translation table (`key_types.c`) -/
/-! The `HID_KEY_*` usage codes of TinyUSB's `class/hid/hid.h`. -/
def HID_KEY_A : Nat := 0x04
def HID_KEY_1 : Nat := 0x1E
def HID_KEY_0 : Nat := 0x27
def HID_KEY_ENTER : Nat := 0x28
def HID_KEY_BACKSPACE : Nat := 0x2A
def HID_KEY_TAB : Nat := 0x2B
def HID_KEY_SPACE : Nat := 0x2C
def HID_KEY_MINUS : Nat := 0x2D
def HID_KEY_EQUAL : Nat := 0x2E
def HID_KEY_BRACKET_LEFT : Nat := 0x2F
def HID_KEY_BRACKET_RIGHT : Nat := 0x30
def HID_KEY_BACKSLASH : Nat := 0x31
def HID_KEY_GRAVE : Nat := 0x35
def HID_KEY_COMMA : Nat := 0x36
def HID_KEY_PERIOD : Nat := 0x37
def HID_KEY_SLASH : Nat := 0x38
def HID_KEY_CAPS_LOCK : Nat := 0x39
def HID_KEY_F1 : Nat := 0x3A
def HID_KEY_F2 : Nat := 0x3B
def HID_KEY_F3 : Nat := 0x3C
def HID_KEY_F4 : Nat := 0x3D
def HID_KEY_F5 : Nat := 0x3E
def HID_KEY_F6 : Nat := 0x3F
def HID_KEY_F7 : Nat := 0x40
def HID_KEY_F8 : Nat := 0x41
def HID_KEY_F9 : Nat := 0x42
def HID_KEY_F10 : Nat := 0x43
def HID_KEY_F11 : Nat := 0x44
def HID_KEY_F12 : Nat := 0x45
def HID_KEY_INSERT : Nat := 0x49
def HID_KEY_HOME : Nat := 0x4A
def HID_KEY_PAGE_UP : Nat := 0x4B
def HID_KEY_DELETE : Nat := 0x4C
def HID_KEY_END : Nat := 0x4D
def HID_KEY_PAGE_DOWN : Nat := 0x4E
def HID_KEY_ARROW_RIGHT : Nat := 0x4F
def HID_KEY_ARROW_LEFT : Nat := 0x50
def HID_KEY_ARROW_DOWN : Nat := 0x51
def HID_KEY_ARROW_UP : Nat := 0x52
def HID_KEY_F13 : Nat := 0x68
def HID_KEY_F14 : Nat := 0x69
def HID_KEY_F15 : Nat := 0x6A
def HID_KEY_F16 : Nat := 0x6B
def HID_KEY_F17 : Nat := 0x6C
def HID_KEY_F18 : Nat := 0x6D
def HID_KEY_F19 : Nat := 0x6E
def HID_KEY_F20 : Nat := 0x6F
def HID_KEY_F21 : Nat := 0x70
def HID_KEY_F22 : Nat := 0x71
def HID_KEY_F23 : Nat := 0x72
def HID_KEY_F24 : Nat := 0x73
def HID_KEY_CONTROL_LEFT : Nat := 0xE0
def HID_KEY_SHIFT_LEFT : Nat := 0xE1
def HID_KEY_ALT_LEFT : Nat := 0xE2
def HID_KEY_GUI_LEFT : Nat := 0xE3
def HID_KEY_CONTROL_RIGHT : Nat := 0xE4
def HID_KEY_SHIFT_RIGHT : Nat := 0xE5
def HID_KEY_ALT_RIGHT : Nat := 0xE6
def HID_KEY_GUI_RIGHT : Nat := 0xE7
def HID_KEY_2 : Nat := 0x1F
def HID_KEY_3 : Nat := 0x20
def HID_KEY_4 : Nat := 0x21
def HID_KEY_5 : Nat := 0x22
def HID_KEY_6 : Nat := 0x23
def HID_KEY_7 : Nat := 0x24
def HID_KEY_8 : Nat := 0x25
def HID_KEY_9 : Nat := 0x26
/-- The symbolic key identifiers `kKey...` that `init_synergy_hid_key_table`
uses.  They are declared in `key_types.h`, which is not among the sources, so
their values are a parameter of the table. -/
structure KeyIds where
  kKeyF1 : Nat
  kKeyF2 : Nat
  kKeyF3 : Nat
  kKeyF4 : Nat
  kKeyF5 : Nat
  kKeyF6 : Nat
  kKeyF7 : Nat
  kKeyF8 : Nat
  kKeyF9 : Nat
  kKeyF10 : Nat
  kKeyF11 : Nat
  kKeyF12 : Nat
  kKeyF13 : Nat
  kKeyF14 : Nat
  kKeyF15 : Nat
  kKeyF16 : Nat
  kKeyF17 : Nat
  kKeyF18 : Nat
  kKeyF19 : Nat
  kKeyF20 : Nat
  kKeyF21 : Nat
  kKeyF22 : Nat
  kKeyF23 : Nat
  kKeyF24 : Nat
  kKeyDelete : Nat
  kKeyCapsLock : Nat
  kKeyTab : Nat
  kKeyBackSpace : Nat
  kKeyReturn : Nat
  kKeyShift_L : Nat
  kKeyShift_R : Nat
  kKeyControl_L : Nat
  kKeyControl_R : Nat
  kKeyAlt_L : Nat
  kKeyAlt_R : Nat
  kKeySuper_L : Nat
  kKeySuper_R : Nat
  kKeyUp : Nat
  kKeyDown : Nat
  kKeyLeft : Nat
  kKeyRight : Nat
  kKeyHome : Nat
  kKeyEnd : Nat
  kKeyInsert : Nat
  kKeyPageUp : Nat
  kKeyPageDown : Nat
  kKeyBrightnessDown : Nat
  kKeyBrightnessUp : Nat
  kKeyAudioPlay : Nat
  kKeyAudioNext : Nat
  kKeyAudioPrev : Nat

/-- Every symbolic identifier, in the order of its assignment in
`init_synergy_hid_key_table`. -/
def KeyIds.all (ids : KeyIds) : List Nat :=
  [ids.kKeyF1, ids.kKeyF2, ids.kKeyF3, ids.kKeyF4,
   ids.kKeyF5, ids.kKeyF6, ids.kKeyF7, ids.kKeyF8,
   ids.kKeyF9, ids.kKeyF10, ids.kKeyF11, ids.kKeyF12,
   ids.kKeyF13, ids.kKeyF14, ids.kKeyF15, ids.kKeyF16,
   ids.kKeyF17, ids.kKeyF18, ids.kKeyF19, ids.kKeyF20,
   ids.kKeyF21, ids.kKeyF22, ids.kKeyF23, ids.kKeyF24,
   ids.kKeyDelete, ids.kKeyCapsLock, ids.kKeyTab, ids.kKeyBackSpace,
   ids.kKeyReturn, ids.kKeyShift_L, ids.kKeyShift_R, ids.kKeyControl_L,
   ids.kKeyControl_R, ids.kKeyAlt_L, ids.kKeyAlt_R, ids.kKeySuper_L,
   ids.kKeySuper_R, ids.kKeyUp, ids.kKeyDown, ids.kKeyLeft,
   ids.kKeyRight, ids.kKeyHome, ids.kKeyEnd, ids.kKeyInsert,
   ids.kKeyPageUp, ids.kKeyPageDown, ids.kKeyBrightnessDown, ids.kKeyBrightnessUp,
   ids.kKeyAudioPlay, ids.kKeyAudioNext, ids.kKeyAudioPrev]

/-- Modelled from the spec: the values of the symbolic identifiers of
`key_types.h`, which is not among the sources, lie inside the 0x200 entries of
the table and outside the printable ASCII characters 0x20..0x7E. -/
def KeyIds.reserved (ids : KeyIds) : Prop :=
  ∀ k ∈ ids.all, k < 0x200 ∧ (k < 0x20 ∨ 0x7E < k)

instance (ids : KeyIds) : Decidable ids.reserved := by
  unfold KeyIds.reserved; infer_instance

/-- The loop `for (int i = 'A'; i < 'Z'; i++) table[i] = HID_KEY_A + (i - 'A');`
from index `i` with `n` iterations left; `base` is the first letter.  The same
loop runs over the lower case letters. -/
def letter_loop (base : Nat) (table : Nat → Nat) (i : Nat) : Nat → (Nat → Nat)
  | 0 => table
  | n + 1 => letter_loop base (Function.update table i (HID_KEY_A + (i - base))) (i + 1) n

/-- The loop `for (int i = 0; i < 9; i++) table['1' + i] = HID_KEY_1 + i;`
from index `i` with `n` iterations left. -/
def digit_loop (table : Nat → Nat) (i : Nat) : Nat → (Nat → Nat)
  | 0 => table
  | n + 1 => digit_loop (Function.update table (0x31 + i) (HID_KEY_1 + i)) (i + 1) n

/-- A run of assignments `table[index] = value;`, the first of the list first. -/
def store_all (table : Nat → Nat) : List (Nat × Nat) → (Nat → Nat)
  | [] => table
  | (index, value) :: rest => store_all (Function.update table index value) rest

/-- The assignments to the punctuation characters, in source order. -/
def punctuation_assignments : List (Nat × Nat) :=
  [(0x20, HID_KEY_SPACE),          -- ' '
   (0x2F, HID_KEY_SLASH),          -- '/'
   (0x3F, HID_KEY_SLASH),          -- '?'
   (0x30, HID_KEY_0),              -- '0'
   (0x21, HID_KEY_1),              -- '!'
   (0x40, HID_KEY_2),              -- '@'
   (0x23, HID_KEY_3),              -- '#'
   (0x24, HID_KEY_4),              -- '$'
   (0x25, HID_KEY_5),              -- '%'
   (0x5E, HID_KEY_6),              -- '^'
   (0x26, HID_KEY_7),              -- '&'
   (0x2A, HID_KEY_8),              -- '*'
   (0x28, HID_KEY_9),              -- '('
   (0x29, HID_KEY_0),              -- ')'
   (0x5B, HID_KEY_BRACKET_LEFT),   -- '['
   (0x5D, HID_KEY_BRACKET_RIGHT),  -- ']'
   (0x7B, HID_KEY_BRACKET_LEFT),   -- left brace
   (0x7D, HID_KEY_BRACKET_RIGHT),  -- right brace
   (0x2D, HID_KEY_MINUS),          -- '-'
   (0x5F, HID_KEY_MINUS),          -- '_'
   (0x3D, HID_KEY_EQUAL),          -- '='
   (0x2B, HID_KEY_EQUAL),          -- '+'
   (0x2E, HID_KEY_PERIOD),         -- '.'
   (0x2C, HID_KEY_COMMA),          -- ','
   (0x60, HID_KEY_GRAVE),          -- grave accent
   (0x7E, HID_KEY_GRAVE),          -- '~'
   (0x5C, HID_KEY_BACKSLASH),      -- backslash
   (0x7C, HID_KEY_BACKSLASH)]      -- '|'

/-- The assignments to the symbolic identifiers, in source order. -/
def symbolic_assignments (ids : KeyIds) : List (Nat × Nat) :=
  [(ids.kKeyF1, HID_KEY_F1),
   (ids.kKeyF2, HID_KEY_F2),
   (ids.kKeyF3, HID_KEY_F3),
   (ids.kKeyF4, HID_KEY_F4),
   (ids.kKeyF5, HID_KEY_F5),
   (ids.kKeyF6, HID_KEY_F6),
   (ids.kKeyF7, HID_KEY_F7),
   (ids.kKeyF8, HID_KEY_F8),
   (ids.kKeyF9, HID_KEY_F9),
   (ids.kKeyF10, HID_KEY_F10),
   (ids.kKeyF11, HID_KEY_F11),
   (ids.kKeyF12, HID_KEY_F12),
   (ids.kKeyF13, HID_KEY_F13),
   (ids.kKeyF14, HID_KEY_F14),
   (ids.kKeyF15, HID_KEY_F15),
   (ids.kKeyF16, HID_KEY_F16),
   (ids.kKeyF17, HID_KEY_F17),
   (ids.kKeyF18, HID_KEY_F18),
   (ids.kKeyF19, HID_KEY_F19),
   (ids.kKeyF20, HID_KEY_F20),
   (ids.kKeyF21, HID_KEY_F21),
   (ids.kKeyF22, HID_KEY_F22),
   (ids.kKeyF23, HID_KEY_F23),
   (ids.kKeyF24, HID_KEY_F24),
   (ids.kKeyDelete, HID_KEY_DELETE),
   (ids.kKeyCapsLock, HID_KEY_CAPS_LOCK),
   (ids.kKeyTab, HID_KEY_TAB),
   (ids.kKeyBackSpace, HID_KEY_BACKSPACE),
   (ids.kKeyReturn, HID_KEY_ENTER),
   (ids.kKeyShift_L, HID_KEY_SHIFT_LEFT),
   (ids.kKeyShift_R, HID_KEY_SHIFT_RIGHT),
   (ids.kKeyControl_L, HID_KEY_CONTROL_LEFT),
   (ids.kKeyControl_R, HID_KEY_CONTROL_RIGHT),
   (ids.kKeyAlt_L, HID_KEY_ALT_LEFT),
   (ids.kKeyAlt_R, HID_KEY_ALT_RIGHT),
   (ids.kKeySuper_L, HID_KEY_GUI_RIGHT),
   (ids.kKeySuper_R, HID_KEY_GUI_RIGHT),
   (ids.kKeyUp, HID_KEY_ARROW_UP),
   (ids.kKeyDown, HID_KEY_ARROW_DOWN),
   (ids.kKeyLeft, HID_KEY_ARROW_LEFT),
   (ids.kKeyRight, HID_KEY_ARROW_RIGHT),
   (ids.kKeyHome, HID_KEY_HOME),
   (ids.kKeyEnd, HID_KEY_END),
   (ids.kKeyInsert, HID_KEY_INSERT),
   (ids.kKeyPageUp, HID_KEY_PAGE_UP),
   (ids.kKeyPageDown, HID_KEY_PAGE_DOWN),
   (ids.kKeyBrightnessDown, 0x070),
   (ids.kKeyBrightnessUp, 0x06F),
   (ids.kKeyAudioPlay, 0x0CD),
   (ids.kKeyAudioNext, 0x0B5),
   (ids.kKeyAudioPrev, 0x0B6)]

/-- The function `init_synergy_hid_key_table` on the array `table`. -/
def init_synergy_hid_key_table (ids : KeyIds) (table : Nat → Nat) : Nat → Nat :=
  let table := letter_loop 0x41 table 0x41 (0x5A - 0x41)   -- 'A' .. < 'Z'
  let table := letter_loop 0x61 table 0x61 (0x7A - 0x61)   -- 'a' .. < 'z'
  let table := digit_loop table 0 9
  let table := store_all table punctuation_assignments
  store_all table (symbolic_assignments ids)

/-- The state in which `serial_read_task` starts with `rx` waiting on the UART:
the zero-initialised globals, and `table` as `init_synergy_hid_key_table`
leaves it when `app_main` has called it. -/
def initial_state (ids : KeyIds) (rx : List Nat) : State :=
  { rx := rx
    table := init_synergy_hid_key_table ids (fun _ => 0)
    _buttons := 0
    _x := 0
    _y := 0
    server_button_state := fun _ => 0
    key_report := fun _ => 0
    sent := [] }

/-- A sample assignment of the symbolic identifiers, for evaluating the table
on concrete input: the identifiers numbered from 0x100 in declaration order. -/
def sample_ids : KeyIds :=
  { kKeyF1 := 0x100
    kKeyF2 := 0x101
    kKeyF3 := 0x102
    kKeyF4 := 0x103
    kKeyF5 := 0x104
    kKeyF6 := 0x105
    kKeyF7 := 0x106
    kKeyF8 := 0x107
    kKeyF9 := 0x108
    kKeyF10 := 0x109
    kKeyF11 := 0x10A
    kKeyF12 := 0x10B
    kKeyF13 := 0x10C
    kKeyF14 := 0x10D
    kKeyF15 := 0x10E
    kKeyF16 := 0x10F
    kKeyF17 := 0x110
    kKeyF18 := 0x111
    kKeyF19 := 0x112
    kKeyF20 := 0x113
    kKeyF21 := 0x114
    kKeyF22 := 0x115
    kKeyF23 := 0x116
    kKeyF24 := 0x117
    kKeyDelete := 0x118
    kKeyCapsLock := 0x119
    kKeyTab := 0x11A
    kKeyBackSpace := 0x11B
    kKeyReturn := 0x11C
    kKeyShift_L := 0x11D
    kKeyShift_R := 0x11E
    kKeyControl_L := 0x11F
    kKeyControl_R := 0x120
    kKeyAlt_L := 0x121
    kKeyAlt_R := 0x122
    kKeySuper_L := 0x123
    kKeySuper_R := 0x124
    kKeyUp := 0x125
    kKeyDown := 0x126
    kKeyLeft := 0x127
    kKeyRight := 0x128
    kKeyHome := 0x129
    kKeyEnd := 0x12A
    kKeyInsert := 0x12B
    kKeyPageUp := 0x12C
    kKeyPageDown := 0x12D
    kKeyBrightnessDown := 0x12E
    kKeyBrightnessUp := 0x12F
    kKeyAudioPlay := 0x130
    kKeyAudioNext := 0x131
    kKeyAudioPrev := 0x132 }

/-- Handling of `n` packets in a row: `n` calls of `read_packet`, stopping at
the first fault. -/
def read_packets : Nat → State → Except Fault State
  | 0, s => .ok s
  | n + 1, s =>
    match read_packet s with
    | .error e => .error e
    | .ok s1 => read_packets n s1

/-- The bytes of a KeyDown packet as the peer puts them on the wire and
`read_packet` with `handle_key_down` reads them back: the tag, the id big-endian,
the two bytes of the modifier mask and the button big-endian. -/
def key_down_bytes (id m1 m2 button : Nat) : List Nat :=
  [3, id / 256, id % 256, m1, m2, button / 256, button % 256]

/-- The number of payload bytes the handler of a packet kind asks the UART for,
the sum of the lengths of its `uart_read_bytes` calls: `handle_abs` 2 + 2,
`handle_mouse_down` and `handle_mouse_up` 1, `handle_key_down` and
`handle_key_up` 2 + 2 + 2, `handle_mouse_wheel` 2 + 2; the other kinds read
nothing. -/
def payload_length : Nat → Nat
  | 0 => 4
  | 1 => 1
  | 2 => 1
  | 3 => 6
  | 4 => 6
  | 5 => 4
  | _ => 0

/-- A complete KeyDown or KeyUp packet as the peer sends it: the kind, the key
id, the two bytes of the modifier mask and the button id. -/
structure KeyPacket where
  /-- KeyUp (tag 4) when true, KeyDown (tag 3) when false. -/
  up : Bool
  id : Nat
  m1 : Nat
  m2 : Nat
  button : Nat

/-- The seven bytes of a key packet on the wire, as `read_packet` and the key
handlers read them back. -/
def KeyPacket.bytes (p : KeyPacket) : List Nat :=
  [if p.up then 4 else 3, p.id / 256, p.id % 256, p.m1, p.m2, p.button / 256, p.button % 256]

/-- The bytes of a sequence of key packets, the first packet first. -/
def key_packets_bytes : List KeyPacket → List Nat
  | [] => []
  | p :: ps => p.bytes ++ key_packets_bytes ps

/-- No non-zero keycode is in two of the six slots of a key report. -/
def slots_unique (key_report : Nat → Nat) : Prop :=
  ∀ i j, i < 6 → j < 6 → key_report i = key_report j → key_report i ≠ 0 → i = j

/-- The KeyDown packet `p`, handled in the state `s`, is taken as a new press
(its id translates to a non-zero keycode that its button does not record) and
finds an empty slot while its keycode already occupies a slot. -/
def places_duplicate (s : State) (p : KeyPacket) : Prop :=
  p.up = false ∧ s.table p.id ≠ 0 ∧ s.server_button_state p.button ≠ s.table p.id ∧
  (∃ i, i < 6 ∧ s.key_report i = s.table p.id) ∧ (∃ d, d < 6 ∧ s.key_report d = 0)

/-- Every non-zero slot of the key report holds a keycode that some button
below 0x200 records. -/
def slots_recorded (s : State) : Prop :=
  ∀ i, i < 6 → s.key_report i ≠ 0 →
    ∃ b, b < 0x200 ∧ s.server_button_state b = s.key_report i

/-- The key packet `p`, handled in the state `s`, takes away the only record
of a keycode that stays in a slot: its button records a non-zero keycode that
no other button below 0x200 records, and either `p` is a KeyDown taken as a new
press while that keycode occupies a slot, or `p` is a KeyUp while that keycode
occupies two slots. -/
def orphans_key (s : State) (p : KeyPacket) : Prop :=
  s.server_button_state p.button ≠ 0 ∧
  (∀ b, b < 0x200 → b ≠ p.button →
    s.server_button_state b ≠ s.server_button_state p.button) ∧
  ((p.up = false ∧ s.table p.id ≠ 0 ∧ s.server_button_state p.button ≠ s.table p.id ∧
      ∃ i, i < 6 ∧ s.key_report i = s.server_button_state p.button) ∨
    (p.up = true ∧
      ∃ i j, i < 6 ∧ j < 6 ∧ i ≠ j ∧ s.key_report i = s.server_button_state p.button ∧
        s.key_report j = s.server_button_state p.button))

/-! ## Lemmas on machine words -/

theorem be16_bytes (x : Nat) (hx : x < 65536) (rest : List Nat) :
    be16 ((x / 256 :: x % 256 :: rest).take 2) = x := by
  have h1 : x % 256 < 2 ^ 8 := by omega
  have h2 := Nat.mul_add_lt_is_or h1 (x / 256)
  simp only [be16, word_of, List.take, List.getD_cons_zero, List.getD_cons_succ,
    Nat.shiftLeft_eq]
  rw [Nat.mul_comm, ← h2]
  omega

/-! ## Lemmas on the slot loops -/

theorem key_down_loop_first_empty (key : Nat) (key_report : Nat → Nat) :
    ∀ (n i d : Nat), d < n → key_report (i + d) = 0 →
      (∀ j, j < d → key_report (i + j) ≠ 0) →
      key_down_loop key key_report i n = Function.update key_report (i + d) key := by
  intro n
  induction n with
  | zero => intro i d hd; omega
  | succ n ih =>
    intro i d hd hzero hbefore
    cases d with
    | zero => simp at hzero; simp [key_down_loop, hzero]
    | succ d =>
      have h0 : key_report i ≠ 0 := by simpa using hbefore 0 (by omega)
      have hstep := ih (i + 1) d (by omega) (by rw [← hzero]; congr 1; omega)
        (fun j hj => by
          have := hbefore (j + 1) (by omega)
          rwa [show i + 1 + j = i + (j + 1) by omega])
      rw [show i + 1 + d = i + (d + 1) by omega] at hstep
      simp only [key_down_loop, h0, if_false, hstep]

theorem key_down_loop_full (key : Nat) (key_report : Nat → Nat) :
    ∀ (n i : Nat), (∀ j, j < n → key_report (i + j) ≠ 0) →
      key_down_loop key key_report i n = key_report := by
  intro n
  induction n with
  | zero => intro i _; rfl
  | succ n ih =>
    intro i hfull
    have h0 : key_report i ≠ 0 := by simpa using hfull 0 (by omega)
    have hstep := ih (i + 1) (fun j hj => by
      have := hfull (j + 1) (by omega)
      rwa [show i + 1 + j = i + (j + 1) by omega])
    simp only [key_down_loop, h0, if_false, hstep]

theorem key_up_loop_first_match (key : Nat) (key_report : Nat → Nat) :
    ∀ (n i d : Nat), d < n → key_report (i + d) = key →
      (∀ j, j < d → key_report (i + j) ≠ key) →
      key_up_loop key key_report i n = Function.update key_report (i + d) 0 := by
  intro n
  induction n with
  | zero => intro i d hd; omega
  | succ n ih =>
    intro i d hd hmatch hbefore
    cases d with
    | zero => simp at hmatch; simp [key_up_loop, hmatch]
    | succ d =>
      have h0 : key_report i ≠ key := by simpa using hbefore 0 (by omega)
      have hstep := ih (i + 1) d (by omega) (by rw [← hmatch]; congr 1; omega)
        (fun j hj => by
          have := hbefore (j + 1) (by omega)
          rwa [show i + 1 + j = i + (j + 1) by omega])
      rw [show i + 1 + d = i + (d + 1) by omega] at hstep
      simp only [key_up_loop, h0, if_false, hstep]

theorem key_up_loop_no_match (key : Nat) (key_report : Nat → Nat) :
    ∀ (n i : Nat), (∀ j, j < n → key_report (i + j) ≠ key) →
      key_up_loop key key_report i n = key_report := by
  intro n
  induction n with
  | zero => intro i _; rfl
  | succ n ih =>
    intro i hnone
    have h0 : key_report i ≠ key := by simpa using hnone 0 (by omega)
    have hstep := ih (i + 1) (fun j hj => by
      have := hnone (j + 1) (by omega)
      rwa [show i + 1 + j = i + (j + 1) by omega])
    simp only [key_up_loop, h0, if_false, hstep]

/-! ## Lemmas on the decoding of key packets -/

theorem be16_pair (x : Nat) (hx : x < 65536) : be16 [x / 256, x % 256] = x := by
  have := be16_bytes x hx []
  simpa using this

theorem read_packet_key_down (s : State) (id m1 m2 b : Nat) (rest : List Nat)
    (hid : id < 65536) (hb : b < 65536)
    (hrx : s.rx = 3 :: id / 256 :: id % 256 :: m1 :: m2 :: b / 256 :: b % 256 :: rest) :
    read_packet s =
      match synergy_to_hid s.table id with
      | .error e => .error e
      | .ok key =>
        if key = 0 then .ok { s with rx := rest } else
        if ¬ b < 0x200 then .error Fault.button_state_index else
        if s.server_button_state b = key then .ok { s with rx := rest } else
        .ok { s with
              rx := rest
              server_button_state := Function.update s.server_button_state b key
              key_report := key_down_loop key s.key_report 0 6
              sent := s.sent ++
                [Report.keyboard 0 (report_bytes (key_down_loop key s.key_report 0 6))] } := by
  simp [read_packet, uart_read_bytes, hrx, handle_key_down, be16_pair id hid, be16_pair b hb]

theorem read_packet_key_up (s : State) (i1 i2 m1 m2 b : Nat) (rest : List Nat)
    (hb : b < 0x200)
    (hrx : s.rx = 4 :: i1 :: i2 :: m1 :: m2 :: b / 256 :: b % 256 :: rest) :
    read_packet s = .ok
      { s with
        rx := rest
        server_button_state := Function.update s.server_button_state b 0
        key_report := key_up_loop (s.server_button_state b) s.key_report 0 6
        sent := s.sent ++ [Report.keyboard 0 [0, 0, 0, 0, 0, 0]] } := by
  have hb16 : b < 65536 := by omega
  simp [read_packet, uart_read_bytes, hrx, handle_key_up, be16_pair b hb16, hb]
  rfl

theorem synergy_to_hid_ok_lt {table : Nat → Nat} {id k : Nat}
    (h : synergy_to_hid table id = .ok k) : id < 0x200 ∧ table id = k := by
  unfold synergy_to_hid at h
  split at h
  · exact ⟨by assumption, by injection h⟩
  · cases h

theorem key_down_new_key (s : State) (id m1 m2 b k i : Nat) (rest : List Nat)
    (hk : synergy_to_hid s.table id = .ok k) (hk0 : k ≠ 0) (hb : b < 0x200)
    (hnew : s.server_button_state b ≠ k)
    (hi : i < 6) (hempty : s.key_report i = 0) (hfirst : ∀ j, j < i → s.key_report j ≠ 0)
    (hrx : s.rx = 3 :: id / 256 :: id % 256 :: m1 :: m2 :: b / 256 :: b % 256 :: rest) :
    read_packet s = .ok
      { s with
        rx := rest
        server_button_state := Function.update s.server_button_state b k
        key_report := Function.update s.key_report i k
        sent := s.sent ++ [Report.keyboard 0 (report_bytes (Function.update s.key_report i k))] } := by
  have hid : id < 65536 := by have := (synergy_to_hid_ok_lt hk).1; omega
  have hloop := key_down_loop_first_empty k s.key_report 6 0 i hi (by simpa using hempty)
    (fun j hj => by simpa using hfirst j hj)
  rw [read_packet_key_down s id m1 m2 b rest hid (by omega) hrx, hk]
  simp [hk0, hb, hnew, hloop]

theorem key_down_rollover (s : State) (id m1 m2 b k : Nat) (rest : List Nat)
    (hk : synergy_to_hid s.table id = .ok k) (hk0 : k ≠ 0) (hb : b < 0x200)
    (hnew : s.server_button_state b ≠ k)
    (hfull : ∀ j, j < 6 → s.key_report j ≠ 0)
    (hrx : s.rx = 3 :: id / 256 :: id % 256 :: m1 :: m2 :: b / 256 :: b % 256 :: rest) :
    read_packet s = .ok
      { s with
        rx := rest
        server_button_state := Function.update s.server_button_state b k
        sent := s.sent ++ [Report.keyboard 0 (report_bytes s.key_report)] } := by
  have hid : id < 65536 := by have := (synergy_to_hid_ok_lt hk).1; omega
  have hloop := key_down_loop_full k s.key_report 6 0 (fun j hj => by simpa using hfull j hj)
  rw [read_packet_key_down s id m1 m2 b rest hid (by omega) hrx, hk]
  simp [hk0, hb, hnew, hloop]

theorem key_down_step (s : State) (id m1 m2 b k i : Nat) (rest : List Nat)
    (hk : synergy_to_hid s.table id = .ok k) (hk0 : k ≠ 0) (hb : b < 0x200)
    (hnew : s.server_button_state b ≠ k)
    (hi : i < 6) (hempty : s.key_report i = 0) (hfirst : ∀ j, j < i → s.key_report j ≠ 0)
    (hrx : s.rx = key_down_bytes id m1 m2 b ++ rest) :
    ∃ s1, read_packet s = .ok s1 ∧ s1.table = s.table ∧ s1.rx = rest ∧
      s1.server_button_state = Function.update s.server_button_state b k ∧
      s1.key_report = Function.update s.key_report i k :=
  ⟨_, key_down_new_key s id m1 m2 b k i rest hk hk0 hb hnew hi hempty hfirst hrx,
    rfl, rfl, rfl, rfl⟩

theorem key_down_step_full (s : State) (id m1 m2 b k : Nat) (rest : List Nat)
    (hk : synergy_to_hid s.table id = .ok k) (hk0 : k ≠ 0) (hb : b < 0x200)
    (hnew : s.server_button_state b ≠ k)
    (hfull : ∀ j, j < 6 → s.key_report j ≠ 0)
    (hrx : s.rx = key_down_bytes id m1 m2 b ++ rest) :
    ∃ s1, read_packet s = .ok s1 ∧ s1.table = s.table ∧ s1.rx = rest ∧
      s1.server_button_state = Function.update s.server_button_state b k ∧
      s1.key_report = s.key_report :=
  ⟨_, key_down_rollover s id m1 m2 b k rest hk hk0 hb hnew hfull hrx, rfl, rfl, rfl, rfl⟩

/-! ## Lemmas on the wheel arithmetic -/

theorem word_of_pair (u : Nat) : word_of [u / 256, u % 256] = u := by
  have h1 : u % 256 < 2 ^ 8 := by omega
  have h2 := Nat.mul_add_lt_is_or h1 (u / 256)
  simp only [word_of, List.getD_cons_zero, List.getD_cons_succ, Nat.shiftLeft_eq]
  rw [Nat.mul_comm, ← h2]
  omega

theorem to_int16_wire (x : Int) (hlo : -32768 ≤ x) (hhi : x ≤ 32767) :
    to_int16 (((x % 65536).toNat : Nat) : Int) = x := by
  have hnn : 0 ≤ x % 65536 := Int.emod_nonneg x (by decide)
  rw [Int.toNat_of_nonneg hnn]
  unfold to_int16
  split <;> omega

theorem tdiv_120_cases (x : Int) :
    Int.tdiv x 120 = if 0 ≤ x then x / 120 else -((-x) / 120) := by
  split
  · exact Int.tdiv_eq_ediv (by assumption) (by decide)
  · have h : x = -(-x) := by omega
    rw [h, Int.neg_tdiv, Int.tdiv_eq_ediv (by omega) (by decide)]
    simp

theorem to_int16_tdiv_120 (x : Int) (hlo : -32768 ≤ x) (hhi : x ≤ 32767) :
    to_int16 (Int.tdiv x 120) = Int.tdiv x 120 := by
  rw [tdiv_120_cases]
  unfold to_int16
  split <;> split <;> omega

/-! ## Lemmas on the key table -/

theorem store_all_of_not_mem (j : Nat) :
    ∀ (l : List (Nat × Nat)) (table : Nat → Nat), (∀ p ∈ l, p.1 ≠ j) →
      store_all table l j = table j := by
  intro l
  induction l with
  | nil => intro table _; rfl
  | cons p l ih =>
    intro table h
    obtain ⟨index, value⟩ := p
    have hp : index ≠ j := h (index, value) (List.mem_cons_self _ _)
    simp only [store_all]
    rw [ih _ (fun q hq => h q (List.mem_cons_of_mem _ hq))]
    exact Function.update_noteq (Ne.symm hp) value table

theorem symbolic_assignments_fst (ids : KeyIds) :
    (symbolic_assignments ids).map Prod.fst = ids.all := rfl

/-- On a printable ASCII index the table holds what the loops and the
punctuation assignments put there: no symbolic identifier of the reserved range
overwrites it. -/
theorem init_table_printable (ids : KeyIds) (hres : ids.reserved) (table : Nat → Nat)
    (j : Nat) (hlo : 0x20 ≤ j) (hhi : j ≤ 0x7E) :
    init_synergy_hid_key_table ids table j =
      store_all
        (digit_loop
          (letter_loop 0x61 (letter_loop 0x41 table 0x41 (0x5A - 0x41)) 0x61 (0x7A - 0x61)) 0 9)
        punctuation_assignments j := by
  unfold init_synergy_hid_key_table
  apply store_all_of_not_mem
  intro p hp
  have hmem : p.1 ∈ ids.all := by
    rw [← symbolic_assignments_fst]
    exact List.mem_map_of_mem Prod.fst hp
  have := hres p.1 hmem
  omega

/-- The scenario of the KeyDown packet for the letter A, for every assignment
of the symbolic identifiers in the reserved range. -/
theorem key_down_letter_A (ids : KeyIds) (hres : ids.reserved) :
    read_packet (initial_state ids [3, 0x00, 0x41, 0x00, 0x00, 0x00, 0x01]) = .ok
      { initial_state ids [] with
        server_button_state := Function.update (fun _ => 0) 1 HID_KEY_A
        key_report := Function.update (fun _ => 0) 0 HID_KEY_A
        sent := [Report.keyboard 0 [HID_KEY_A, 0, 0, 0, 0, 0]] } := by
  have htable : (initial_state ids [3, 0x00, 0x41, 0x00, 0x00, 0x00, 0x01]).table 0x41
      = HID_KEY_A := by
    show init_synergy_hid_key_table ids (fun _ => 0) 0x41 = HID_KEY_A
    rw [init_table_printable ids hres _ 0x41 (by decide) (by decide)]
    decide
  have hk : synergy_to_hid (initial_state ids [3, 0x00, 0x41, 0x00, 0x00, 0x00, 0x01]).table 0x41
      = .ok HID_KEY_A := by
    simp only [synergy_to_hid, htable]
    rfl
  have hnew : (initial_state ids [3, 0x00, 0x41, 0x00, 0x00, 0x00, 0x01]).server_button_state 1
      ≠ HID_KEY_A := by
    show (0 : Nat) ≠ HID_KEY_A
    decide
  exact key_down_new_key _ 0x41 0 0 1 HID_KEY_A 0 [] hk (by decide) (by decide) hnew
    (by decide) rfl (fun j hj => absurd hj (Nat.not_lt_zero j)) rfl

/-! ## Lemmas on the mouse buttons -/

/-- What `handle_mouse_down` does for the raw ordinals 1..5: the mask becomes the
single bit of the remapped ordinal, the position stays and one report goes out. -/
theorem mouse_down_result (s : State) (raw : Nat) (rest : List Nat)
    (hlo : 1 ≤ raw) (hhi : raw ≤ 5) (hrx : s.rx = 1 :: raw :: rest) :
    read_packet s = .ok
      { s with
        rx := rest
        _buttons := 1 <<< (map_mouse_button raw - 1)
        sent := s.sent ++
          [Report.mouse
            { buttons := 1 <<< (map_mouse_button raw - 1), x := s._x, y := s._y,
              wheel := 0, pan := 0 }] } := by
  interval_cases raw <;>
    simp [read_packet, uart_read_bytes, hrx, handle_mouse_down] <;> rfl

/-! ## Lemmas on the letters of the key table -/

theorem init_table_upper (ids : KeyIds) (hres : ids.reserved) (c : Nat)
    (hlo : 0x41 ≤ c) (hhi : c < 0x5A) :
    init_synergy_hid_key_table ids (fun _ => 0) c = HID_KEY_A + (c - 0x41) := by
  rw [init_table_printable ids hres _ c (by omega) (by omega)]
  interval_cases c <;> decide

theorem init_table_lower (ids : KeyIds) (hres : ids.reserved) (c : Nat)
    (hlo : 0x61 ≤ c) (hhi : c < 0x7A) :
    init_synergy_hid_key_table ids (fun _ => 0) c = HID_KEY_A + (c - 0x61) := by
  rw [init_table_printable ids hres _ c (by omega) (by omega)]
  interval_cases c <;> decide

theorem init_table_Z (ids : KeyIds) (hres : ids.reserved) :
    init_synergy_hid_key_table ids (fun _ => 0) 0x5A = 0 ∧
    init_synergy_hid_key_table ids (fun _ => 0) 0x7A = 0 := by
  rw [init_table_printable ids hres _ 0x5A (by decide) (by decide),
    init_table_printable ids hres _ 0x7A (by decide) (by decide)]
  exact ⟨by decide, by decide⟩

theorem synergy_to_hid_in_table (table : Nat → Nat) (id : Nat) (hid : id < 0x200) :
    synergy_to_hid table id = .ok (table id) := by
  simp [synergy_to_hid, hid]

/-! ## Lemmas on clearing a bit -/

theorem clear_bit_testBit (m k i : Nat) (hm : m < 256) :
    ((m &&& (0xFFFFFFFF ^^^ (1 <<< k))) % 256).testBit i = (m.testBit i && decide (i ≠ k)) := by
  have h256 : (256 : Nat) = 2 ^ 8 := by norm_num
  have hff : (0xFFFFFFFF : Nat) = 2 ^ 32 - 1 := by norm_num
  rw [h256, hff, Nat.testBit_mod_two_pow, Nat.testBit_and, Nat.testBit_xor,
    Nat.testBit_two_pow_sub_one, Nat.one_shiftLeft, Nat.testBit_two_pow]
  by_cases hi : i < 8
  · have hi32 : i < 32 := by omega
    by_cases hik : k = i
    · subst hik; simp [hi, hi32]
    · have : i ≠ k := fun h => hik h.symm
      simp [hi, hi32, hik, this]
  · have hlt : m < 2 ^ i := by
      have : (2:Nat) ^ 8 ≤ 2 ^ i := Nat.pow_le_pow_right (by decide) (by omega)
      omega
    simp [hi, Nat.testBit_lt_two_pow hlt]

/-- What `handle_mouse_up` does for the raw ordinals 1..5. -/
theorem mouse_up_result (s : State) (raw : Nat) (rest : List Nat)
    (hlo : 1 ≤ raw) (hhi : raw ≤ 5) (hrx : s.rx = 2 :: raw :: rest) :
    read_packet s = .ok
      { s with
        rx := rest
        _buttons := (s._buttons &&& (0xFFFFFFFF ^^^ (1 <<< (map_mouse_button raw - 1)))) % 256
        sent := s.sent ++
          [Report.mouse
            { buttons :=
                (s._buttons &&& (0xFFFFFFFF ^^^ (1 <<< (map_mouse_button raw - 1)))) % 256,
              x := s._x, y := s._y, wheel := 0, pan := 0 }] } := by
  interval_cases raw <;>
    simp [read_packet, uart_read_bytes, hrx, handle_mouse_up] <;> rfl

/-! ## Lemmas on the outcome of the slot loops -/

theorem key_up_loop_cases (key : Nat) (key_report : Nat → Nat) (n i : Nat) :
    ((∀ j, j < n → key_report (i + j) ≠ key) ∧ key_up_loop key key_report i n = key_report) ∨
    ∃ d, d < n ∧ key_report (i + d) = key ∧ (∀ j, j < d → key_report (i + j) ≠ key) ∧
      key_up_loop key key_report i n = Function.update key_report (i + d) 0 := by
  by_cases h : ∃ d, d < n ∧ key_report (i + d) = key
  · right
    refine ⟨Nat.find h, (Nat.find_spec h).1, (Nat.find_spec h).2, ?_, ?_⟩
    · intro j hj hjk
      exact Nat.find_min h hj ⟨lt_trans hj (Nat.find_spec h).1, hjk⟩
    · exact key_up_loop_first_match key key_report n i (Nat.find h) (Nat.find_spec h).1
        (Nat.find_spec h).2
        (fun j hj hjk => Nat.find_min h hj ⟨lt_trans hj (Nat.find_spec h).1, hjk⟩)
  · left
    have hnone : ∀ j, j < n → key_report (i + j) ≠ key := fun j hj hjk => h ⟨j, hj, hjk⟩
    exact ⟨hnone, key_up_loop_no_match key key_report n i hnone⟩

theorem key_down_loop_cases (key : Nat) (key_report : Nat → Nat) (n i : Nat) :
    ((∀ j, j < n → key_report (i + j) ≠ 0) ∧ key_down_loop key key_report i n = key_report) ∨
    ∃ d, d < n ∧ key_report (i + d) = 0 ∧ (∀ j, j < d → key_report (i + j) ≠ 0) ∧
      key_down_loop key key_report i n = Function.update key_report (i + d) key := by
  by_cases h : ∃ d, d < n ∧ key_report (i + d) = 0
  · right
    refine ⟨Nat.find h, (Nat.find_spec h).1, (Nat.find_spec h).2, ?_, ?_⟩
    · intro j hj hjk
      exact Nat.find_min h hj ⟨lt_trans hj (Nat.find_spec h).1, hjk⟩
    · exact key_down_loop_first_empty key key_report n i (Nat.find h) (Nat.find_spec h).1
        (Nat.find_spec h).2
        (fun j hj hjk => Nat.find_min h hj ⟨lt_trans hj (Nat.find_spec h).1, hjk⟩)
  · left
    have hfull : ∀ j, j < n → key_report (i + j) ≠ 0 := fun j hj hjk => h ⟨j, hj, hjk⟩
    exact ⟨hfull, key_down_loop_full key key_report n i hfull⟩

/-! ## Lemmas on runs of packets -/

theorem read_packets_succ_of_ok (n : Nat) (s s1 : State) (h : read_packet s = .ok s1) :
    read_packets (n + 1) s = read_packets n s1 := by
  simp only [read_packets, h]

theorem read_packets_succ_ok (n : Nat) (s sn : State) (h : read_packets (n + 1) s = .ok sn) :
    ∃ s1, read_packet s = .ok s1 ∧ read_packets n s1 = .ok sn := by
  simp only [read_packets] at h
  split at h
  · cases h
  · exact ⟨_, by assumption, h⟩

/-! ## Lemmas on the mouse state and the mouse reports -/

theorem read_packet_mouse_mirror (s s1 : State) (h : read_packet s = .ok s1) :
    ∃ new, s1.sent = s.sent ++ new ∧
      (((∀ r, Report.mouse r ∉ new) ∧
          s1._x = s._x ∧ s1._y = s._y ∧ s1._buttons = s._buttons) ∨
        ∃ r, new = [Report.mouse r] ∧
          r.x = s1._x ∧ r.y = s1._y ∧ r.buttons = s1._buttons) := by
  unfold read_packet at h
  simp only at h
  split at h
  · injection h with h; subst h
    exact ⟨[], by simp, Or.inl ⟨by simp, rfl, rfl, rfl⟩⟩
  · split at h
    · injection h with h; subst h
      unfold handle_abs
      simp only
      split
      · exact ⟨[], by simp, Or.inl ⟨by simp, rfl, rfl, rfl⟩⟩
      · split
        · exact ⟨[], by simp, Or.inl ⟨by simp, rfl, rfl, rfl⟩⟩
        · exact ⟨_, rfl, Or.inr ⟨_, rfl, rfl, rfl, rfl⟩⟩
    · unfold handle_mouse_down at h
      simp only at h
      split at h
      · injection h with h; subst h
        exact ⟨[], by simp, Or.inl ⟨by simp, rfl, rfl, rfl⟩⟩
      · split at h
        · cases h
        · injection h with h; subst h
          exact ⟨_, rfl, Or.inr ⟨_, rfl, rfl, rfl, rfl⟩⟩
    · unfold handle_mouse_up at h
      simp only at h
      split at h
      · injection h with h; subst h
        exact ⟨[], by simp, Or.inl ⟨by simp, rfl, rfl, rfl⟩⟩
      · split at h
        · cases h
        · injection h with h; subst h
          exact ⟨_, rfl, Or.inr ⟨_, rfl, rfl, rfl, rfl⟩⟩
    · unfold handle_key_down at h
      simp only at h
      split at h
      · injection h with h; subst h
        exact ⟨[], by simp, Or.inl ⟨by simp, rfl, rfl, rfl⟩⟩
      · split at h
        · injection h with h; subst h
          exact ⟨[], by simp, Or.inl ⟨by simp, rfl, rfl, rfl⟩⟩
        · split at h
          · injection h with h; subst h
            exact ⟨[], by simp, Or.inl ⟨by simp, rfl, rfl, rfl⟩⟩
          · split at h
            · cases h
            · split at h
              · injection h with h; subst h
                exact ⟨[], by simp, Or.inl ⟨by simp, rfl, rfl, rfl⟩⟩
              · split at h
                · cases h
                · split at h
                  · injection h with h; subst h
                    exact ⟨[], by simp, Or.inl ⟨by simp, rfl, rfl, rfl⟩⟩
                  · injection h with h; subst h
                    exact ⟨_, rfl, Or.inl ⟨by simp, rfl, rfl, rfl⟩⟩
    · unfold handle_key_up at h
      simp only at h
      split at h
      · injection h with h; subst h
        exact ⟨[], by simp, Or.inl ⟨by simp, rfl, rfl, rfl⟩⟩
      · split at h
        · injection h with h; subst h
          exact ⟨[], by simp, Or.inl ⟨by simp, rfl, rfl, rfl⟩⟩
        · split at h
          · injection h with h; subst h
            exact ⟨[], by simp, Or.inl ⟨by simp, rfl, rfl, rfl⟩⟩
          · split at h
            · cases h
            · injection h with h; subst h
              exact ⟨_, rfl, Or.inl ⟨by simp, rfl, rfl, rfl⟩⟩
    · injection h with h; subst h
      unfold handle_mouse_wheel
      simp only
      split
      · exact ⟨[], by simp, Or.inl ⟨by simp, rfl, rfl, rfl⟩⟩
      · split
        · exact ⟨[], by simp, Or.inl ⟨by simp, rfl, rfl, rfl⟩⟩
        · exact ⟨_, rfl, Or.inr ⟨_, rfl, rfl, rfl, rfl⟩⟩
    · injection h with h; subst h
      exact ⟨[], by simp, Or.inl ⟨by simp, rfl, rfl, rfl⟩⟩
    · injection h with h; subst h
      exact ⟨_, rfl, Or.inr ⟨_, rfl, rfl, rfl, rfl⟩⟩
    · injection h with h; subst h
      exact ⟨[], by simp, Or.inl ⟨by simp, rfl, rfl, rfl⟩⟩

/-! ## Lemmas on keycodes in at most one slot -/

theorem slots_unique_update_zero (key_report : Nat → Nat) (d : Nat)
    (huniq : slots_unique key_report) : slots_unique (Function.update key_report d 0) := by
  intro i j hi hj heq hnz
  have hid : i ≠ d := by
    intro h
    rw [h, Function.update_same] at hnz
    exact hnz rfl
  have hjd : j ≠ d := by
    intro h
    rw [Function.update_noteq hid] at heq hnz
    rw [h, Function.update_same] at heq
    exact hnz heq
  rw [Function.update_noteq hid, Function.update_noteq hjd] at heq
  rw [Function.update_noteq hid] at hnz
  exact huniq i j hi hj heq hnz

theorem slots_unique_update_fresh (key_report : Nat → Nat) (d k : Nat)
    (huniq : slots_unique key_report) (hfresh : ∀ i, i < 6 → key_report i ≠ k) :
    slots_unique (Function.update key_report d k) := by
  intro i j hi hj heq hnz
  by_cases hid : i = d
  · by_cases hjd : j = d
    · rw [hid, hjd]
    · rw [hid, Function.update_same, Function.update_noteq hjd] at heq
      exact absurd heq.symm (hfresh j hj)
  · by_cases hjd : j = d
    · rw [hjd, Function.update_same, Function.update_noteq hid] at heq
      exact absurd heq (hfresh i hi)
    · rw [Function.update_noteq hid, Function.update_noteq hjd] at heq
      rw [Function.update_noteq hid] at hnz
      exact huniq i j hi hj heq hnz

theorem key_packet_bytes_up (p : KeyPacket) (rest : List Nat) (hup : p.up = true) :
    p.bytes ++ rest =
      4 :: p.id / 256 :: p.id % 256 :: p.m1 :: p.m2 :: p.button / 256 :: p.button % 256 ::
        rest := by
  simp [KeyPacket.bytes, hup]

theorem key_packet_bytes_down (p : KeyPacket) (rest : List Nat) (hup : p.up = false) :
    p.bytes ++ rest =
      3 :: p.id / 256 :: p.id % 256 :: p.m1 :: p.m2 :: p.button / 256 :: p.button % 256 ::
        rest := by
  simp [KeyPacket.bytes, hup]

theorem key_packets_bytes_cons (p : KeyPacket) (ps : List KeyPacket) (rest : List Nat) :
    key_packets_bytes (p :: ps) ++ rest = p.bytes ++ (key_packets_bytes ps ++ rest) := by
  simp [key_packets_bytes]

theorem read_packets_zero (s sj : State) (h : read_packets 0 s = .ok sj) : sj = s := by
  have h1 : (Except.ok s : Except Fault State) = Except.ok sj := h
  injection h1 with h1
  exact h1.symm

/-- One key packet either keeps the slots free of duplicates or is a KeyDown
that places a duplicate. -/
theorem key_packet_unique_step (s : State) (p : KeyPacket) (rest : List Nat)
    (hb : p.button < 0x200) (hid : p.up = false → p.id < 0x200)
    (hrx : s.rx = p.bytes ++ rest) :
    ∃ s1, read_packet s = .ok s1 ∧ s1.rx = rest ∧ s1.table = s.table ∧
      (slots_unique s.key_report →
        (slots_unique s1.key_report ↔ ¬ places_duplicate s p)) := by
  cases hup : p.up with
  | true =>
    rw [key_packet_bytes_up p rest hup] at hrx
    refine ⟨_, read_packet_key_up s _ _ _ _ p.button rest hb hrx, rfl, rfl, ?_⟩
    intro huniq
    have hnd : ¬ places_duplicate s p := by
      intro h
      rw [h.1] at hup
      cases hup
    refine ⟨fun _ => hnd, fun _ => ?_⟩
    show slots_unique (key_up_loop (s.server_button_state p.button) s.key_report 0 6)
    rcases key_up_loop_cases (s.server_button_state p.button) s.key_report 6 0 with
      ⟨_, hloop⟩ | ⟨d, _, _, _, hloop⟩
    · rw [hloop]
      exact huniq
    · rw [hloop]
      exact slots_unique_update_zero _ _ huniq
  | false =>
    rw [key_packet_bytes_down p rest hup] at hrx
    have hidlt := hid hup
    have hstep := read_packet_key_down s p.id p.m1 p.m2 p.button rest (by omega) (by omega) hrx
    rw [synergy_to_hid_in_table _ p.id hidlt] at hstep
    simp only at hstep
    by_cases hk0 : s.table p.id = 0
    · rw [if_pos hk0] at hstep
      exact ⟨_, hstep, rfl, rfl, fun huniq => ⟨fun _ h => h.2.1 hk0, fun _ => huniq⟩⟩
    · by_cases hpressed : s.server_button_state p.button = s.table p.id
      · rw [if_neg hk0, if_neg (by simpa using hb), if_pos hpressed] at hstep
        exact ⟨_, hstep, rfl, rfl, fun huniq => ⟨fun _ h => h.2.2.1 hpressed, fun _ => huniq⟩⟩
      · rw [if_neg hk0, if_neg (by simpa using hb), if_neg hpressed] at hstep
        refine ⟨_, hstep, rfl, rfl, fun huniq => ?_⟩
        show slots_unique (key_down_loop (s.table p.id) s.key_report 0 6) ↔
          ¬ places_duplicate s p
        rcases key_down_loop_cases (s.table p.id) s.key_report 6 0 with
          ⟨hfull, hloop⟩ | ⟨d, hd, hzero, _, hloop⟩
        · rw [hloop]
          refine ⟨fun _ h => ?_, fun _ => huniq⟩
          obtain ⟨e, he, hez⟩ := h.2.2.2.2
          have hne : s.key_report e ≠ 0 := by simpa using hfull e he
          exact hne hez
        · simp only [Nat.zero_add] at hloop hzero
          rw [hloop]
          by_cases hex : ∃ i, i < 6 ∧ s.key_report i = s.table p.id
          · have hdup : places_duplicate s p := ⟨hup, hk0, hpressed, hex, ⟨d, hd, hzero⟩⟩
            refine ⟨fun hu _ => ?_, fun h => absurd hdup h⟩
            obtain ⟨i, hi, hik⟩ := hex
            have hid1 : i ≠ d := by
              intro h
              rw [h, hzero] at hik
              exact hk0 hik.symm
            exact hid1 (hu i d hi hd
              (by rw [Function.update_noteq hid1, Function.update_same]; exact hik)
              (by rw [Function.update_noteq hid1, hik]; exact hk0))
          · exact ⟨fun _ h => hex h.2.2.2.1, fun _ =>
              slots_unique_update_fresh _ d _ huniq (fun i hi h => hex ⟨i, hi, h⟩)⟩

/-- A sequence of key packets with buttons below 0x200 and KeyDown ids in the
table runs without a fault, as far as one likes. -/
theorem key_run_total (ps : List KeyPacket) :
    ∀ (s : State) (rest : List Nat),
      s.rx = key_packets_bytes ps ++ rest →
      (∀ p ∈ ps, p.button < 0x200 ∧ (p.up = false → p.id < 0x200)) →
      ∀ j, j ≤ ps.length → ∃ sj, read_packets j s = .ok sj := by
  induction ps with
  | nil =>
    intro s rest _ _ j hj
    have hj0 : j = 0 := by simpa using hj
    subst hj0
    exact ⟨s, rfl⟩
  | cons p ps ih =>
    intro s rest hrx hps j hj
    cases j with
    | zero => exact ⟨s, rfl⟩
    | succ j =>
      rw [key_packets_bytes_cons] at hrx
      obtain ⟨s1, h1, hrx1, _, _⟩ := key_packet_unique_step s p _
        (hps p (List.mem_cons_self _ _)).1 (hps p (List.mem_cons_self _ _)).2 hrx
      obtain ⟨sj, hsj⟩ := ih s1 rest hrx1 (fun q hq => hps q (List.mem_cons_of_mem _ hq)) j
        (by simpa using hj)
      exact ⟨sj, by rw [read_packets_succ_of_ok j s s1 h1]; exact hsj⟩

/-- When each packet keeps the property `Inv` unless it is `Bad`, a run without
a `Bad` packet keeps `Inv` in all its states. -/
theorem run_keeps (Inv : State → Prop) (Bad : State → KeyPacket → Prop)
    (hstep : ∀ (s : State) (p : KeyPacket) (rest : List Nat),
      p.button < 0x200 → (p.up = false → p.id < 0x200) → s.rx = p.bytes ++ rest →
      ∃ s1, read_packet s = .ok s1 ∧ s1.rx = rest ∧ s1.table = s.table ∧
        (Inv s → (Inv s1 ↔ ¬ Bad s p)))
    (ps : List KeyPacket) :
    ∀ (s : State) (rest : List Nat),
      s.rx = key_packets_bytes ps ++ rest →
      (∀ p ∈ ps, p.button < 0x200 ∧ (p.up = false → p.id < 0x200)) →
      Inv s →
      (∀ j p tail sj, ps.drop j = p :: tail → read_packets j s = .ok sj → ¬ Bad sj p) →
      ∀ j sj, j ≤ ps.length → read_packets j s = .ok sj → Inv sj := by
  induction ps with
  | nil =>
    intro s rest _ _ hinv _ j sj hj hsj
    have hj0 : j = 0 := by simpa using hj
    subst hj0
    rw [read_packets_zero s sj hsj]
    exact hinv
  | cons p ps ih =>
    intro s rest hrx hps hinv hno j sj hj hsj
    cases j with
    | zero =>
      rw [read_packets_zero s sj hsj]
      exact hinv
    | succ j =>
      rw [key_packets_bytes_cons] at hrx
      obtain ⟨s1, h1, hrx1, _, hiff⟩ := hstep s p _
        (hps p (List.mem_cons_self _ _)).1 (hps p (List.mem_cons_self _ _)).2 hrx
      have hinv1 : Inv s1 := (hiff hinv).2 (hno 0 p ps s rfl rfl)
      rw [read_packets_succ_of_ok j s s1 h1] at hsj
      exact ih s1 rest hrx1 (fun q hq => hps q (List.mem_cons_of_mem _ hq)) hinv1
        (fun i q tail si hd hr => hno (i + 1) q tail si hd
          (by rw [read_packets_succ_of_ok i s s1 h1]; exact hr))
        j sj (by simpa using hj) hsj

/-- Conversely, a run that keeps `Inv` in all its states has no `Bad` packet. -/
theorem run_breaks (Inv : State → Prop) (Bad : State → KeyPacket → Prop)
    (hstep : ∀ (s : State) (p : KeyPacket) (rest : List Nat),
      p.button < 0x200 → (p.up = false → p.id < 0x200) → s.rx = p.bytes ++ rest →
      ∃ s1, read_packet s = .ok s1 ∧ s1.rx = rest ∧ s1.table = s.table ∧
        (Inv s → (Inv s1 ↔ ¬ Bad s p)))
    (ps : List KeyPacket) :
    ∀ (s : State) (rest : List Nat),
      s.rx = key_packets_bytes ps ++ rest →
      (∀ p ∈ ps, p.button < 0x200 ∧ (p.up = false → p.id < 0x200)) →
      (∀ j sj, j ≤ ps.length → read_packets j s = .ok sj → Inv sj) →
      ∀ j p tail sj, ps.drop j = p :: tail → read_packets j s = .ok sj → ¬ Bad sj p := by
  induction ps with
  | nil =>
    intro s rest _ _ _ j p tail sj hd _
    simp at hd
  | cons p0 ps ih =>
    intro s rest hrx hps hall j p tail sj hd hsj
    rw [key_packets_bytes_cons] at hrx
    obtain ⟨s1, h1, hrx1, _, hiff⟩ := hstep s p0 _
      (hps p0 (List.mem_cons_self _ _)).1 (hps p0 (List.mem_cons_self _ _)).2 hrx
    cases j with
    | zero =>
      have hp : p0 = p := by
        have hd1 : p0 :: ps = p :: tail := hd
        injection hd1
      rw [read_packets_zero s sj hsj, ← hp]
      have hinv : Inv s := hall 0 s (Nat.zero_le _) rfl
      have hinv1 : Inv s1 :=
        hall 1 s1 (by simp) (by rw [read_packets_succ_of_ok 0 s s1 h1]; rfl)
      exact (hiff hinv).1 hinv1
    | succ j =>
      rw [read_packets_succ_of_ok j s s1 h1] at hsj
      exact ih s1 rest hrx1 (fun q hq => hps q (List.mem_cons_of_mem _ hq))
        (fun i si hi hr => hall (i + 1) si (by simpa using hi)
          (by rw [read_packets_succ_of_ok i s s1 h1]; exact hr))
        j p tail sj hd hsj

theorem initial_slots_unique (ids : KeyIds) (rx : List Nat) :
    slots_unique (initial_state ids rx).key_report :=
  fun _ _ _ _ _ h => absurd rfl h

/-! ## Lemmas on the records of the keys in the report -/

/-- One key packet either keeps every key of the report recorded for a button
or takes away the only record of a key that stays in a slot. -/
theorem key_packet_recorded_step (s : State) (p : KeyPacket) (rest : List Nat)
    (hb : p.button < 0x200) (hid : p.up = false → p.id < 0x200)
    (hrx : s.rx = p.bytes ++ rest) :
    ∃ s1, read_packet s = .ok s1 ∧ s1.rx = rest ∧ s1.table = s.table ∧
      (slots_recorded s → (slots_recorded s1 ↔ ¬ orphans_key s p)) := by
  cases hup : p.up with
  | true =>
    rw [key_packet_bytes_up p rest hup] at hrx
    refine ⟨_, read_packet_key_up s _ _ _ _ p.button rest hb hrx, rfl, rfl, ?_⟩
    intro hrec
    show (∀ i, i < 6 →
        key_up_loop (s.server_button_state p.button) s.key_report 0 6 i ≠ 0 →
        ∃ b0, b0 < 0x200 ∧ Function.update s.server_button_state p.button 0 b0 =
          key_up_loop (s.server_button_state p.button) s.key_report 0 6 i) ↔
      ¬ orphans_key s p
    rcases key_up_loop_cases (s.server_button_state p.button) s.key_report 6 0 with
      ⟨hnone, hloop⟩ | ⟨d, hd, hmatch, _, hloop⟩
    · have hnone1 : ∀ i, i < 6 → s.key_report i ≠ s.server_button_state p.button := by
        intro i hi
        simpa using hnone i hi
      rw [hloop]
      constructor
      · intro _ horph
        rcases horph.2.2 with h | h
        · rw [h.1] at hup
          cases hup
        · obtain ⟨i, _, hi, _, _, hik, _⟩ := h.2
          exact hnone1 i hi hik
      · intro _ i hi hnz
        obtain ⟨b0, hb0, hr⟩ := hrec i hi hnz
        have hne : b0 ≠ p.button := by
          intro h
          rw [h] at hr
          exact hnone1 i hi hr.symm
        exact ⟨b0, hb0, by rw [Function.update_noteq hne]; exact hr⟩
    · simp only [Nat.zero_add] at hloop hmatch
      rw [hloop]
      constructor
      · intro hrec1 horph
        obtain ⟨hvnz, hsole, hcase⟩ := horph
        rcases hcase with h | h
        · rw [h.1] at hup
          cases hup
        · obtain ⟨i, j, hi, hj, hij, hik, hjk⟩ := h.2
          have hex : ∃ e, e < 6 ∧ e ≠ d ∧
              s.key_report e = s.server_button_state p.button := by
            by_cases hid1 : i = d
            · exact ⟨j, hj, fun h => hij (hid1.trans h.symm), hjk⟩
            · exact ⟨i, hi, hid1, hik⟩
          obtain ⟨e, he, hed, hek⟩ := hex
          obtain ⟨b0, hb0, hr⟩ := hrec1 e he
            (by rw [Function.update_noteq hed, hek]; exact hvnz)
          rw [Function.update_noteq hed, hek] at hr
          by_cases hbb : b0 = p.button
          · rw [hbb, Function.update_same] at hr
            exact hvnz hr.symm
          · rw [Function.update_noteq hbb] at hr
            exact hsole b0 hb0 hbb hr
      · intro hnorph i hi hnz
        have hid1 : i ≠ d := by
          intro h
          rw [h, Function.update_same] at hnz
          exact hnz rfl
        rw [Function.update_noteq hid1] at hnz ⊢
        obtain ⟨b0, hb0, hr⟩ := hrec i hi hnz
        by_cases hbb : b0 = p.button
        · rw [hbb] at hr
          have hvnz : s.server_button_state p.button ≠ 0 := by
            rw [hr]
            exact hnz
          have hnsole : ¬ ∀ b, b < 0x200 → b ≠ p.button →
              s.server_button_state b ≠ s.server_button_state p.button := fun hsole =>
            hnorph ⟨hvnz, hsole, Or.inr ⟨hup, i, d, hi, hd, hid1, hr.symm, hmatch⟩⟩
          push_neg at hnsole
          obtain ⟨b1, hb1, hne1, hr1⟩ := hnsole
          exact ⟨b1, hb1, by rw [Function.update_noteq hne1, hr1, hr]⟩
        · exact ⟨b0, hb0, by rw [Function.update_noteq hbb]; exact hr⟩
  | false =>
    rw [key_packet_bytes_down p rest hup] at hrx
    have hidlt := hid hup
    have hstep := read_packet_key_down s p.id p.m1 p.m2 p.button rest (by omega) (by omega) hrx
    rw [synergy_to_hid_in_table _ p.id hidlt] at hstep
    simp only at hstep
    by_cases hk0 : s.table p.id = 0
    · rw [if_pos hk0] at hstep
      refine ⟨_, hstep, rfl, rfl, fun hrec => ⟨fun _ horph => ?_, fun _ => hrec⟩⟩
      rcases horph.2.2 with h | h
      · exact h.2.1 hk0
      · rw [h.1] at hup
        cases hup
    · by_cases hpressed : s.server_button_state p.button = s.table p.id
      · rw [if_neg hk0, if_neg (by simpa using hb), if_pos hpressed] at hstep
        refine ⟨_, hstep, rfl, rfl, fun hrec => ⟨fun _ horph => ?_, fun _ => hrec⟩⟩
        rcases horph.2.2 with h | h
        · exact h.2.2.1 hpressed
        · rw [h.1] at hup
          cases hup
      · rw [if_neg hk0, if_neg (by simpa using hb), if_neg hpressed] at hstep
        refine ⟨_, hstep, rfl, rfl, fun hrec => ?_⟩
        show (∀ i, i < 6 → key_down_loop (s.table p.id) s.key_report 0 6 i ≠ 0 →
            ∃ b0, b0 < 0x200 ∧
              Function.update s.server_button_state p.button (s.table p.id) b0 =
                key_down_loop (s.table p.id) s.key_report 0 6 i) ↔
          ¬ orphans_key s p
        have hold : ∀ i, i < 6 → s.key_report i ≠ 0 → ¬ orphans_key s p →
            ∃ b0, b0 < 0x200 ∧
              Function.update s.server_button_state p.button (s.table p.id) b0 =
                s.key_report i := by
          intro i hi hnz hnorph
          obtain ⟨b0, hb0, hr⟩ := hrec i hi hnz
          by_cases hbb : b0 = p.button
          · rw [hbb] at hr
            have hvnz : s.server_button_state p.button ≠ 0 := by
              rw [hr]
              exact hnz
            have hnsole : ¬ ∀ b, b < 0x200 → b ≠ p.button →
                s.server_button_state b ≠ s.server_button_state p.button := fun hsole =>
              hnorph ⟨hvnz, hsole, Or.inl ⟨hup, hk0, hpressed, i, hi, hr.symm⟩⟩
            push_neg at hnsole
            obtain ⟨b1, hb1, hne1, hr1⟩ := hnsole
            exact ⟨b1, hb1, by rw [Function.update_noteq hne1, hr1, hr]⟩
          · exact ⟨b0, hb0, by rw [Function.update_noteq hbb]; exact hr⟩
        have hbreak : ∀ key_report1 : Nat → Nat,
            (∀ i, i < 6 → s.key_report i ≠ 0 → key_report1 i = s.key_report i) →
            (∀ i, i < 6 → key_report1 i ≠ 0 →
              ∃ b0, b0 < 0x200 ∧
                Function.update s.server_button_state p.button (s.table p.id) b0 =
                  key_report1 i) →
            ¬ orphans_key s p := by
          intro key_report1 hsame hrec1 horph
          obtain ⟨hvnz, hsole, hcase⟩ := horph
          rcases hcase with h | h
          · obtain ⟨i, hi, hik⟩ := h.2.2.2
            have hnz : s.key_report i ≠ 0 := by
              rw [hik]
              exact hvnz
            obtain ⟨b0, hb0, hr⟩ := hrec1 i hi (by rw [hsame i hi hnz]; exact hnz)
            rw [hsame i hi hnz, hik] at hr
            by_cases hbb : b0 = p.button
            · rw [hbb, Function.update_same] at hr
              exact hpressed hr.symm
            · rw [Function.update_noteq hbb] at hr
              exact hsole b0 hb0 hbb hr
          · rw [h.1] at hup
            cases hup
        rcases key_down_loop_cases (s.table p.id) s.key_report 6 0 with
          ⟨_, hloop⟩ | ⟨d, hd, hzero, _, hloop⟩
        · rw [hloop]
          exact ⟨fun hrec1 => hbreak s.key_report (fun _ _ _ => rfl) hrec1,
            fun hnorph i hi hnz => hold i hi hnz hnorph⟩
        · simp only [Nat.zero_add] at hloop hzero
          rw [hloop]
          constructor
          · intro hrec1
            exact hbreak (Function.update s.key_report d (s.table p.id))
              (fun i _ hnz => Function.update_noteq
                (fun h => hnz (by rw [h]; exact hzero)) _ _) hrec1
          · intro hnorph i hi hnz
            by_cases hid1 : i = d
            · rw [hid1, Function.update_same]
              exact ⟨p.button, hb, Function.update_same _ _ _⟩
            · rw [Function.update_noteq hid1] at hnz ⊢
              exact hold i hi hnz hnorph

theorem initial_slots_recorded (ids : KeyIds) (rx : List Nat) :
    slots_recorded (initial_state ids rx) :=
  fun _ _ h => absurd rfl h

/-- A KeyUp of a button that records the key of an occupied slot empties a slot
that holds this key. -/
theorem key_up_releases (s : State) (i1 i2 m1 m2 b i : Nat) (rest : List Nat)
    (hb : b < 0x200) (hi : i < 6) (hrec : s.server_button_state b = s.key_report i)
    (hrx : s.rx = 4 :: i1 :: i2 :: m1 :: m2 :: b / 256 :: b % 256 :: rest) :
    ∃ s1 d, read_packet s = .ok s1 ∧ d < 6 ∧ s.key_report d = s.key_report i ∧
      s1.key_report = Function.update s.key_report d 0 := by
  refine ⟨_, ?_, read_packet_key_up s i1 i2 m1 m2 b rest hb hrx, ?_⟩
  · exact Nat.find (⟨i, hi, hrec.symm⟩ :
      ∃ d, d < 6 ∧ s.key_report d = s.server_button_state b)
  · have hex : ∃ d, d < 6 ∧ s.key_report d = s.server_button_state b := ⟨i, hi, hrec.symm⟩
    refine ⟨(Nat.find_spec hex).1, (Nat.find_spec hex).2.trans hrec, ?_⟩
    show key_up_loop (s.server_button_state b) s.key_report 0 6 = _
    have hloop := key_up_loop_first_match (s.server_button_state b) s.key_report 6 0
      (Nat.find hex) (Nat.find_spec hex).1 (by simpa using (Nat.find_spec hex).2)
      (fun j hj hjk => Nat.find_min hex hj
        ⟨lt_trans hj (Nat.find_spec hex).1, by simpa using hjk⟩)
    simpa using hloop

/-! ## Lemmas on filling the six slots -/

theorem key_up_step (s : State) (i1 i2 m1 m2 b : Nat) (rest : List Nat) (hb : b < 0x200)
    (hrx : s.rx = 4 :: i1 :: i2 :: m1 :: m2 :: b / 256 :: b % 256 :: rest) :
    ∃ s1, read_packet s = .ok s1 ∧ s1.table = s.table ∧ s1.rx = rest ∧
      s1.server_button_state = Function.update s.server_button_state b 0 ∧
      s1.key_report = key_up_loop (s.server_button_state b) s.key_report 0 6 :=
  ⟨_, read_packet_key_up s i1 i2 m1 m2 b rest hb hrx, rfl, rfl, rfl, rfl⟩

theorem six_key_downs (s : State) (id m1 m2 b k : Fin 6 → Nat) (rest : List Nat)
    (hkr : ∀ i, i < 6 → s.key_report i = 0)
    (hbs : ∀ j, s.server_button_state j = 0)
    (htr : ∀ n, synergy_to_hid s.table (id n) = .ok (k n))
    (hk0 : ∀ n, k n ≠ 0)
    (hb : ∀ n, b n < 0x200) (hbinj : Function.Injective b)
    (hrx : s.rx =
      key_down_bytes (id 0) (m1 0) (m2 0) (b 0) ++ (key_down_bytes (id 1) (m1 1) (m2 1) (b 1) ++
      (key_down_bytes (id 2) (m1 2) (m2 2) (b 2) ++ (key_down_bytes (id 3) (m1 3) (m2 3) (b 3) ++
      (key_down_bytes (id 4) (m1 4) (m2 4) (b 4) ++ (key_down_bytes (id 5) (m1 5) (m2 5) (b 5) ++
      rest)))))) :
    ∃ s6, read_packets 6 s = .ok s6 ∧ s6.table = s.table ∧ s6.rx = rest ∧
      s6.server_button_state =
        Function.update (Function.update (Function.update (Function.update (Function.update
          (Function.update s.server_button_state (b 0) (k 0)) (b 1) (k 1)) (b 2) (k 2))
          (b 3) (k 3)) (b 4) (k 4)) (b 5) (k 5) ∧
      s6.key_report =
        Function.update (Function.update (Function.update (Function.update (Function.update
          (Function.update s.key_report 0 (k 0)) 1 (k 1)) 2 (k 2)) 3 (k 3)) 4 (k 4)) 5 (k 5) := by
  have hne : ∀ n, (0 : Nat) ≠ k n := fun n => (hk0 n).symm
  have hz0 := hkr 0 (by omega)
  have hz1 := hkr 1 (by omega)
  have hz2 := hkr 2 (by omega)
  have hz3 := hkr 3 (by omega)
  have hz4 := hkr 4 (by omega)
  have hz5 := hkr 5 (by omega)
  obtain ⟨s1, h1, t1, r1, b1, k1⟩ := key_down_step s (id 0) (m1 0) (m2 0) (b 0) (k 0) 0 _
    (htr 0) (hk0 0) (hb 0) (by simp [hbs, hne]) (by omega) hz0 (by intro j hj; omega) hrx
  obtain ⟨s2, h2, t2, r2, b2, k2⟩ := key_down_step s1 (id 1) (m1 1) (m2 1) (b 1) (k 1) 1 _
    (by rw [t1]; exact htr 1) (hk0 1) (hb 1)
    (by simp [b1, Function.update_apply, hbinj.eq_iff, hbs, hne]) (by omega)
    (by simp [k1, Function.update_apply, hz1])
    (by intro j hj; interval_cases j; simp [k1, Function.update_apply, hk0]) r1
  rw [t1] at t2; rw [b1] at b2; rw [k1] at k2
  obtain ⟨s3, h3, t3, r3, b3, k3⟩ := key_down_step s2 (id 2) (m1 2) (m2 2) (b 2) (k 2) 2 _
    (by rw [t2]; exact htr 2) (hk0 2) (hb 2)
    (by simp [b2, Function.update_apply, hbinj.eq_iff, hbs, hne]) (by omega)
    (by simp [k2, Function.update_apply, hz2])
    (by intro j hj; interval_cases j <;> simp [k2, Function.update_apply, hk0]) r2
  rw [t2] at t3; rw [b2] at b3; rw [k2] at k3
  obtain ⟨s4, h4, t4, r4, b4, k4⟩ := key_down_step s3 (id 3) (m1 3) (m2 3) (b 3) (k 3) 3 _
    (by rw [t3]; exact htr 3) (hk0 3) (hb 3)
    (by simp [b3, Function.update_apply, hbinj.eq_iff, hbs, hne]) (by omega)
    (by simp [k3, Function.update_apply, hz3])
    (by intro j hj; interval_cases j <;> simp [k3, Function.update_apply, hk0]) r3
  rw [t3] at t4; rw [b3] at b4; rw [k3] at k4
  obtain ⟨s5, h5, t5, r5, b5, k5⟩ := key_down_step s4 (id 4) (m1 4) (m2 4) (b 4) (k 4) 4 _
    (by rw [t4]; exact htr 4) (hk0 4) (hb 4)
    (by simp [b4, Function.update_apply, hbinj.eq_iff, hbs, hne]) (by omega)
    (by simp [k4, Function.update_apply, hz4])
    (by intro j hj; interval_cases j <;> simp [k4, Function.update_apply, hk0]) r4
  rw [t4] at t5; rw [b4] at b5; rw [k4] at k5
  obtain ⟨s6, h6, t6, r6, b6, k6⟩ := key_down_step s5 (id 5) (m1 5) (m2 5) (b 5) (k 5) 5 _
    (by rw [t5]; exact htr 5) (hk0 5) (hb 5)
    (by simp [b5, Function.update_apply, hbinj.eq_iff, hbs, hne]) (by omega)
    (by simp [k5, Function.update_apply, hz5])
    (by intro j hj; interval_cases j <;> simp [k5, Function.update_apply, hk0]) r5
  rw [t5] at t6; rw [b5] at b6; rw [k5] at k6
  refine ⟨s6, ?_, t6, r6, b6, k6⟩
  simp only [read_packets, h1, h2, h3, h4, h5, h6]

/-! ## The run KeyDown(0x41), KeyUp, KeyDown(0x42) on button 1 -/

theorem press_release_states :
    ∃ s1 s2,
      read_packets 1 (initial_state sample_ids
        [3, 0, 0x41, 0, 0, 0, 1, 4, 0, 0x41, 0, 0, 0, 1, 3, 0, 0x42, 0, 0, 0, 1]) = .ok s1 ∧
      (∀ i, i ≠ 0 → s1.key_report i = 0) ∧
      read_packets 2 (initial_state sample_ids
        [3, 0, 0x41, 0, 0, 0, 1, 4, 0, 0x41, 0, 0, 0, 1, 3, 0, 0x42, 0, 0, 0, 1]) = .ok s2 ∧
      (∀ b, s2.server_button_state b = 0) ∧ (∀ i, s2.key_report i = 0) := by
  obtain ⟨s1, h1, _, r1, b1, k1⟩ := key_down_step
    (initial_state sample_ids
      [3, 0, 0x41, 0, 0, 0, 1, 4, 0, 0x41, 0, 0, 0, 1, 3, 0, 0x42, 0, 0, 0, 1])
    0x41 0 0 1 HID_KEY_A 0 _ rfl (by decide) (by decide) (by decide) (by decide) rfl
    (by intro j hj; omega) rfl
  obtain ⟨s2, h2, _, _, b2, k2⟩ := key_up_step s1 0 0x41 0 0 1 _ (by decide) r1
  have hkey : s1.server_button_state 1 = HID_KEY_A := by rw [b1, Function.update_same]
  have hloop := key_up_loop_first_match HID_KEY_A s1.key_report 6 0 0 (by decide)
    (by rw [k1]; exact Function.update_same _ _ _) (fun j hj => absurd hj (Nat.not_lt_zero j))
  rw [hkey, hloop] at k2
  refine ⟨s1, s2, ?_, ?_, ?_, ?_, ?_⟩
  · simp only [read_packets, h1]
  · intro i hi
    rw [k1, Function.update_noteq hi]
    rfl
  · simp only [read_packets, h1, h2]
  · intro b
    rw [b2, b1]
    by_cases hb : b = 1
    · rw [hb, Function.update_same]
    · rw [Function.update_noteq hb, Function.update_noteq hb]
      rfl
  · intro i
    rw [k2, k1]
    by_cases hi : i = 0
    · rw [hi]
      exact Function.update_same _ _ _
    · rw [show (0 + 0 : Nat) = 0 from rfl, Function.update_noteq hi, Function.update_noteq hi]
      rfl

/-! ## C1: AbsMove -/

/-- C1: a complete AbsMove packet (tag 0, big-endian x, big-endian y) stores
(x, y) as the position, leaves the button mask and the keyboard state alone and
hands exactly one mouse report to USB, with the current mask, X = x, Y = y,
wheel = 0 and pan = 0. -/
theorem C1_abs_move (s : State) (x y : Nat) (rest : List Nat)
    (hx : x < 65536) (hy : y < 65536)
    (hrx : s.rx = 0 :: x / 256 :: x % 256 :: y / 256 :: y % 256 :: rest) :
    read_packet s = .ok
      { s with
        rx := rest
        _x := x
        _y := y
        sent := s.sent ++
          [Report.mouse { buttons := s._buttons, x := x, y := y, wheel := 0, pan := 0 }] } := by
  have ex := be16_bytes x hx (y / 256 :: y % 256 :: rest)
  have ey := be16_bytes y hy rest
  simp only [List.take] at ex ey
  simp [read_packet, uart_read_bytes, hrx, handle_abs, usb_hid_move_to_pos, ex, ey]

/-- C1, at the input of the scenario: the bytes 0x00,0x64,0x00,0xC8 after the
AbsMove tag give one mouse report at (100, 200) with nothing pressed. -/
theorem C1_abs_move_witness :
    read_packet (initial_state sample_ids [0x00, 0x00, 0x64, 0x00, 0xC8]) = .ok
      { initial_state sample_ids [0x00, 0x00, 0x64, 0x00, 0xC8] with
        rx := []
        _x := 100
        _y := 200
        sent := [] ++
          [Report.mouse { buttons := 0, x := 100, y := 200, wheel := 0, pan := 0 }] } :=
  C1_abs_move (initial_state sample_ids [0x00, 0x00, 0x64, 0x00, 0xC8]) 100 200 []
    (by decide) (by decide) rfl

/-! ## C2: MouseDown and the button mask -/

/-- C2, evaluated where it fails: with the left button held (mask 1), the
packet MouseDown(2) leaves the mask 4 = 1 << (3 - 1) and reports it, whereas
the mask with the old bit kept would be 1 | 4 = 5; `set_mouse_buttons`
overwrites `_buttons`. -/
theorem C2_mouse_down_overwrites_mask :
    ∃ s1, read_packet { initial_state sample_ids [1, 2] with _buttons := 1 } = .ok s1 ∧
      s1._buttons = 4 ∧
      s1._buttons ≠ 1 ||| (1 <<< (map_mouse_button 2 - 1)) ∧
      s1._buttons.testBit 0 = false ∧
      s1.sent = [Report.mouse { buttons := 4, x := 0, y := 0, wheel := 0, pan := 0 }] :=
  ⟨_, rfl, by decide, by decide, by decide, by decide⟩

/-! ## C3: button remap -/

/-- C3 as stated fails: from the empty mask, MouseDown(2) gives the mask 4, in
which (counting from 0 at the least significant bit) bit 2 is set and bit 3 is
not, and MouseDown(3) gives the mask 2, in which bit 2 is not set. -/
theorem C3_counterexample :
    (∃ s1, read_packet (initial_state sample_ids [1, 2]) = .ok s1 ∧
      s1._buttons = 4 ∧ s1._buttons.testBit 3 = false ∧ s1._buttons.testBit 2 = true) ∧
    (∃ s1, read_packet (initial_state sample_ids [1, 3]) = .ok s1 ∧
      s1._buttons = 2 ∧ s1._buttons.testBit 2 = false) :=
  ⟨⟨_, rfl, by decide, by decide, by decide⟩, ⟨_, rfl, by decide, by decide⟩⟩

/-- C3, amended: from an empty mask, MouseDown(2) yields the mask
1 << (3 - 1) = 4, in which bit 2 is set and bit 3 is not, and MouseDown(3)
yields the mask 1 << (2 - 1) = 2, in which bit 1 is set and bit 2 is not (bits
counted from 0 at the least significant bit). -/
theorem C3_button_remap (s : State) (rest : List Nat) (_hmask : s._buttons = 0) :
    (s.rx = 1 :: 2 :: rest →
      ∃ s1, read_packet s = .ok s1 ∧ s1._buttons = 4 ∧
        s1._buttons.testBit 2 = true ∧ s1._buttons.testBit 3 = false) ∧
    (s.rx = 1 :: 3 :: rest →
      ∃ s1, read_packet s = .ok s1 ∧ s1._buttons = 2 ∧
        s1._buttons.testBit 1 = true ∧ s1._buttons.testBit 2 = false) := by
  constructor
  · intro hrx
    refine ⟨usb_hid_mouse_button 4 { s with rx := rest }, ?_, rfl, ?_, ?_⟩
    · simp [read_packet, uart_read_bytes, hrx, handle_mouse_down]
      rfl
    · show Nat.testBit 4 2 = true
      decide
    · show Nat.testBit 4 3 = false
      decide
  · intro hrx
    refine ⟨usb_hid_mouse_button 2 { s with rx := rest }, ?_, rfl, ?_, ?_⟩
    · simp [read_packet, uart_read_bytes, hrx, handle_mouse_down]
      rfl
    · show Nat.testBit 2 1 = true
      decide
    · show Nat.testBit 2 2 = false
      decide

/-- C3 amended, at the empty mask of the initial state. -/
theorem C3_button_remap_witness :
    (∃ s1, read_packet (initial_state sample_ids [1, 2]) = .ok s1 ∧ s1._buttons = 4 ∧
        s1._buttons.testBit 2 = true ∧ s1._buttons.testBit 3 = false) ∧
    (∃ s1, read_packet (initial_state sample_ids [1, 3]) = .ok s1 ∧ s1._buttons = 2 ∧
        s1._buttons.testBit 1 = true ∧ s1._buttons.testBit 2 = false) :=
  ⟨(C3_button_remap (initial_state sample_ids [1, 2]) [] rfl).1 rfl,
   (C3_button_remap (initial_state sample_ids [1, 3]) [] rfl).2 rfl⟩

/-! ## C4: KeyDown of a new key -/

/-- C4: when the id translates to a non-zero k, the buttonId b < 0x200 does not
already hold k and slot i is the first empty slot of the report, a complete
KeyDown packet stores k in ButtonStateTable[b], writes k into slot i, leaves
every other slot as it was and hands one keyboard report to USB, with modifier
byte 0 and the six updated slots. -/
theorem C4_key_down_fills_first_empty_slot (s : State) (id m1 m2 b k i : Nat)
    (rest : List Nat)
    (hk : synergy_to_hid s.table id = .ok k) (hk0 : k ≠ 0) (hb : b < 0x200)
    (hnew : s.server_button_state b ≠ k)
    (hi : i < 6) (hempty : s.key_report i = 0) (hfirst : ∀ j, j < i → s.key_report j ≠ 0)
    (hrx : s.rx = 3 :: id / 256 :: id % 256 :: m1 :: m2 :: b / 256 :: b % 256 :: rest) :
    read_packet s = .ok
      { s with
        rx := rest
        server_button_state := Function.update s.server_button_state b k
        key_report := Function.update s.key_report i k
        sent := s.sent ++
          [Report.keyboard 0
            [Function.update s.key_report i k 0, Function.update s.key_report i k 1,
             Function.update s.key_report i k 2, Function.update s.key_report i k 3,
             Function.update s.key_report i k 4, Function.update s.key_report i k 5]] } :=
  key_down_new_key s id m1 m2 b k i rest hk hk0 hb hnew hi hempty hfirst hrx

/-- C4, at the input of the scenario: from the initial state the bytes
0x00,0x41,0x00,0x00,0x00,0x01 after the KeyDown tag give the keyboard report
with modifier 0 and keys [HID_KEY_A,0,0,0,0,0], and record HID_KEY_A for
button 1. -/
theorem C4_key_down_witness :
    ∃ s1, read_packet (initial_state sample_ids [3, 0x00, 0x41, 0x00, 0x00, 0x00, 0x01]) = .ok s1 ∧
      s1.sent = [Report.keyboard 0 [HID_KEY_A, 0, 0, 0, 0, 0]] ∧
      s1.server_button_state 1 = HID_KEY_A ∧
      report_bytes s1.key_report = [HID_KEY_A, 0, 0, 0, 0, 0] :=
  ⟨_, C4_key_down_fills_first_empty_slot
        (initial_state sample_ids [3, 0x00, 0x41, 0x00, 0x00, 0x00, 0x01])
        0x41 0 0 1 HID_KEY_A 0 [] rfl (by decide) (by decide) (by decide) (by decide) rfl
        (fun j hj => absurd hj (Nat.not_lt_zero j)) rfl,
    rfl, rfl, rfl⟩

/-! ## C8: KeyUp always reports the empty keyboard -/

/-- C8: every complete KeyUp packet with buttonId b < 0x200 hands exactly one
keyboard report to USB and it is the empty one (modifier 0, six zero keycodes),
whatever the id, the recorded key and the other slots are. -/
theorem C8_key_up_sends_empty_report (s : State) (i1 i2 m1 m2 b : Nat) (rest : List Nat)
    (hb : b < 0x200)
    (hrx : s.rx = 4 :: i1 :: i2 :: m1 :: m2 :: b / 256 :: b % 256 :: rest) :
    ∃ s1, read_packet s = .ok s1 ∧
      s1.sent = s.sent ++ [Report.keyboard 0 [0, 0, 0, 0, 0, 0]] :=
  ⟨_, read_packet_key_up s i1 i2 m1 m2 b rest hb hrx, rfl⟩

/-- C8, for a KeyUp of button 1 that no KeyDown preceded. -/
theorem C8_key_up_witness :
    ∃ s1, read_packet (initial_state sample_ids [4, 0x00, 0x41, 0x00, 0x00, 0x00, 0x01]) = .ok s1 ∧
      s1.sent = [] ++ [Report.keyboard 0 [0, 0, 0, 0, 0, 0]] :=
  C8_key_up_sends_empty_report
    (initial_state sample_ids [4, 0x00, 0x41, 0x00, 0x00, 0x00, 0x01]) 0x00 0x41 0 0 1 []
    (by decide) rfl

/-! ## C5: KeyDown is idempotent -/

/-- C5: handling KeyDown(id, *, b) twice in a row (b < 0x200, any two masks)
gives the very result of handling it once, so the same KeyboardReportState and
the same ButtonStateTable; and for an id inside the translation table that
result is a state, not a fault. -/
theorem C5_key_down_idempotent (s : State) (id m1 m2 m3 m4 b : Nat) (rest : List Nat)
    (hid : id < 65536) (hb : b < 0x200)
    (hrx : s.rx = 3 :: id / 256 :: id % 256 :: m1 :: m2 :: b / 256 :: b % 256 ::
                  3 :: id / 256 :: id % 256 :: m3 :: m4 :: b / 256 :: b % 256 :: rest) :
    read_packets 2 s =
        read_packet
          { s with rx := 3 :: id / 256 :: id % 256 :: m1 :: m2 :: b / 256 :: b % 256 :: rest } ∧
    (id < 0x200 →
      ∃ s1 s2,
        read_packet
          { s with rx := 3 :: id / 256 :: id % 256 :: m1 :: m2 :: b / 256 :: b % 256 :: rest }
          = .ok s1 ∧
        read_packets 2 s = .ok s2 ∧
        s2.key_report = s1.key_report ∧
        s2.server_button_state = s1.server_button_state) := by
  have hb16 : b < 65536 := by omega
  have honce := read_packet_key_down
    { s with rx := 3 :: id / 256 :: id % 256 :: m1 :: m2 :: b / 256 :: b % 256 :: rest }
    id m1 m2 b rest hid hb16 rfl
  have hfirst := read_packet_key_down s id m1 m2 b
    (3 :: id / 256 :: id % 256 :: m3 :: m4 :: b / 256 :: b % 256 :: rest) hid hb16 hrx
  have heq : read_packets 2 s =
      read_packet
        { s with rx := 3 :: id / 256 :: id % 256 :: m1 :: m2 :: b / 256 :: b % 256 :: rest } := by
    rw [honce]
    simp only [read_packets, hfirst]
    cases hk : synergy_to_hid s.table id with
    | error e => rfl
    | ok key =>
      by_cases hk0 : key = 0
      · have hsecond := read_packet_key_down
          { s with rx := 3 :: id / 256 :: id % 256 :: m3 :: m4 :: b / 256 :: b % 256 :: rest }
          id m3 m4 b rest hid hb16 rfl
        simp [hk0, hsecond, hk]
      · by_cases hheld : s.server_button_state b = key
        · have hsecond := read_packet_key_down
            { s with rx := 3 :: id / 256 :: id % 256 :: m3 :: m4 :: b / 256 :: b % 256 :: rest }
            id m3 m4 b rest hid hb16 rfl
          simp [hk0, hb, hheld, hsecond, hk]
        · have hsecond := read_packet_key_down
            { s with
              rx := 3 :: id / 256 :: id % 256 :: m3 :: m4 :: b / 256 :: b % 256 :: rest
              server_button_state := Function.update s.server_button_state b key
              key_report := key_down_loop key s.key_report 0 6
              sent := s.sent ++
                [Report.keyboard 0 (report_bytes (key_down_loop key s.key_report 0 6))] }
            id m3 m4 b rest hid hb16 rfl
          simp [hk0, hb, hheld, hsecond, hk]
  refine ⟨heq, fun hin => ?_⟩
  have hok : ∃ s1, read_packet
      { s with rx := 3 :: id / 256 :: id % 256 :: m1 :: m2 :: b / 256 :: b % 256 :: rest }
      = .ok s1 := by
    rw [honce]
    have hk : synergy_to_hid s.table id = .ok (s.table id) := by simp [synergy_to_hid, hin]
    simp only [hk]
    split_ifs <;> exact ⟨_, rfl⟩
  obtain ⟨s1, hs1⟩ := hok
  exact ⟨s1, s1, hs1, by rw [heq, hs1], rfl, rfl⟩

/-- C5, at KeyDown(0x41, 0, 1) sent twice to the initial state. -/
theorem C5_key_down_idempotent_witness :
    read_packets 2 (initial_state sample_ids
        [3, 0x00, 0x41, 0, 0, 0x00, 0x01, 3, 0x00, 0x41, 0, 0, 0x00, 0x01]) =
      read_packet { initial_state sample_ids
        [3, 0x00, 0x41, 0, 0, 0x00, 0x01, 3, 0x00, 0x41, 0, 0, 0x00, 0x01] with
        rx := [3, 0x00, 0x41, 0, 0, 0x00, 0x01] } ∧
    ∃ s1 s2,
      read_packet { initial_state sample_ids
        [3, 0x00, 0x41, 0, 0, 0x00, 0x01, 3, 0x00, 0x41, 0, 0, 0x00, 0x01] with
        rx := [3, 0x00, 0x41, 0, 0, 0x00, 0x01] } = .ok s1 ∧
      read_packets 2 (initial_state sample_ids
        [3, 0x00, 0x41, 0, 0, 0x00, 0x01, 3, 0x00, 0x41, 0, 0, 0x00, 0x01]) = .ok s2 ∧
      s2.key_report = s1.key_report ∧
      s2.server_button_state = s1.server_button_state :=
  ⟨(C5_key_down_idempotent
      (initial_state sample_ids
        [3, 0x00, 0x41, 0, 0, 0x00, 0x01, 3, 0x00, 0x41, 0, 0, 0x00, 0x01])
      0x41 0 0 0 0 1 [] (by decide) (by decide) rfl).1,
   (C5_key_down_idempotent
      (initial_state sample_ids
        [3, 0x00, 0x41, 0, 0, 0x00, 0x01, 3, 0x00, 0x41, 0, 0, 0x00, 0x01])
      0x41 0 0 0 0 1 [] (by decide) (by decide) rfl).2 (by decide)⟩

/-! ## C6: KeyDown then KeyUp -/

/-- C6: from a state with the six report slots empty and ButtonStateTable all
zero, KeyDown(id, *, b) followed by KeyUp(id, *, b), for a key id of the table
and b < 0x200, ends in a state whose six report slots are empty and whose
ButtonStateTable[b] is 0. -/
theorem C6_key_round_trip (s : State) (id m1 m2 m3 m4 b : Nat) (rest : List Nat)
    (hid : id < 0x200) (hb : b < 0x200)
    (hkr : ∀ i, i < 6 → s.key_report i = 0)
    (hbs : ∀ j, s.server_button_state j = 0)
    (hrx : s.rx = 3 :: id / 256 :: id % 256 :: m1 :: m2 :: b / 256 :: b % 256 ::
                  4 :: id / 256 :: id % 256 :: m3 :: m4 :: b / 256 :: b % 256 :: rest) :
    ∃ s2, read_packets 2 s = .ok s2 ∧
      (∀ i, i < 6 → s2.key_report i = 0) ∧
      s2.server_button_state b = 0 := by
  have hid16 : id < 65536 := by omega
  have hb16 : b < 65536 := by omega
  have hfirst := read_packet_key_down s id m1 m2 b
    (4 :: id / 256 :: id % 256 :: m3 :: m4 :: b / 256 :: b % 256 :: rest) hid16 hb16 hrx
  have hk : synergy_to_hid s.table id = .ok (s.table id) := by simp [synergy_to_hid, hid]
  have hzero : s.key_report 0 = 0 := hkr 0 (by omega)
  by_cases hk0 : s.table id = 0
  · have hsecond := read_packet_key_up
      { s with rx := 4 :: id / 256 :: id % 256 :: m3 :: m4 :: b / 256 :: b % 256 :: rest }
      (id / 256) (id % 256) m3 m4 b rest hb rfl
    have hloop := key_up_loop_first_match 0 s.key_report 6 0 0 (by omega)
      (by simpa using hzero) (fun j hj => absurd hj (Nat.not_lt_zero j))
    refine ⟨{ s with
        rx := rest
        server_button_state := Function.update s.server_button_state b 0
        key_report := key_up_loop (s.server_button_state b) s.key_report 0 6
        sent := s.sent ++ [Report.keyboard 0 [0, 0, 0, 0, 0, 0]] }, ?_, ?_, ?_⟩
    · simp only [read_packets, hfirst, hk, hk0, if_true, hsecond]
    · intro i hi
      simp only [hbs, hloop]
      rw [Function.update_apply]
      split
      · rfl
      · exact hkr i hi
    · simp
  · have hnew : s.server_button_state b ≠ s.table id := by rw [hbs]; exact Ne.symm hk0
    have hdown := key_down_loop_first_empty (s.table id) s.key_report 6 0 0 (by omega)
      (by simpa using hzero) (fun j hj => absurd hj (Nat.not_lt_zero j))
    have hsecond := read_packet_key_up
      { s with
        rx := 4 :: id / 256 :: id % 256 :: m3 :: m4 :: b / 256 :: b % 256 :: rest
        server_button_state := Function.update s.server_button_state b (s.table id)
        key_report := key_down_loop (s.table id) s.key_report 0 6
        sent := s.sent ++
          [Report.keyboard 0 (report_bytes (key_down_loop (s.table id) s.key_report 0 6))] }
      (id / 256) (id % 256) m3 m4 b rest hb rfl
    have hloop := key_up_loop_first_match (s.table id)
      (Function.update s.key_report 0 (s.table id)) 6 0 0 (by omega)
      (by simp) (fun j hj => absurd hj (Nat.not_lt_zero j))
    refine ⟨{ s with
        rx := rest
        server_button_state :=
          Function.update (Function.update s.server_button_state b (s.table id)) b 0
        key_report :=
          key_up_loop (Function.update s.server_button_state b (s.table id) b)
            (key_down_loop (s.table id) s.key_report 0 6) 0 6
        sent := (s.sent ++
          [Report.keyboard 0 (report_bytes (key_down_loop (s.table id) s.key_report 0 6))]) ++
          [Report.keyboard 0 [0, 0, 0, 0, 0, 0]] }, ?_, ?_, ?_⟩
    · simp only [read_packets, hfirst, hk, hk0, if_false, hb, not_true_eq_false, hnew, hsecond]
    · intro i hi
      simp only [hdown, Function.update_same, hloop]
      rw [Function.update_apply]
      split
      · rfl
      · rw [Function.update_apply]
        split
        · contradiction
        · exact hkr i hi
    · simp

/-- C6, at KeyDown(0x41, 0, 1) then KeyUp(0x41, 0, 1) from the initial state. -/
theorem C6_key_round_trip_witness :
    ∃ s2, read_packets 2 (initial_state sample_ids
        [3, 0x00, 0x41, 0, 0, 0x00, 0x01, 4, 0x00, 0x41, 0, 0, 0x00, 0x01]) = .ok s2 ∧
      (∀ i, i < 6 → s2.key_report i = 0) ∧
      s2.server_button_state 1 = 0 :=
  C6_key_round_trip
    (initial_state sample_ids [3, 0x00, 0x41, 0, 0, 0x00, 0x01, 4, 0x00, 0x41, 0, 0, 0x00, 0x01])
    0x41 0 0 0 0 1 [] (by decide) (by decide) (fun _ _ => rfl) (fun _ => rfl) rfl

/-! ## C7: rollover -/

/-- C7: from a state with the six report slots empty and ButtonStateTable all
zero, seven KeyDown packets whose ids translate to seven distinct non-zero
keycodes k 0 .. k 6, with pairwise distinct buttonIds below 0x200, leave
KeyboardReportState = [k 0, k 1, k 2, k 3, k 4, k 5] in that order, with k 6 in
no slot. -/
theorem C7_rollover (s : State) (id m1 m2 b k : Fin 7 → Nat) (rest : List Nat)
    (hkr : ∀ i, i < 6 → s.key_report i = 0)
    (hbs : ∀ j, s.server_button_state j = 0)
    (htr : ∀ n, synergy_to_hid s.table (id n) = .ok (k n))
    (hk0 : ∀ n, k n ≠ 0) (hkinj : Function.Injective k)
    (hb : ∀ n, b n < 0x200) (hbinj : Function.Injective b)
    (hrx : s.rx =
      key_down_bytes (id 0) (m1 0) (m2 0) (b 0) ++ (key_down_bytes (id 1) (m1 1) (m2 1) (b 1) ++
      (key_down_bytes (id 2) (m1 2) (m2 2) (b 2) ++ (key_down_bytes (id 3) (m1 3) (m2 3) (b 3) ++
      (key_down_bytes (id 4) (m1 4) (m2 4) (b 4) ++ (key_down_bytes (id 5) (m1 5) (m2 5) (b 5) ++
      (key_down_bytes (id 6) (m1 6) (m2 6) (b 6) ++ rest))))))) :
    ∃ s7, read_packets 7 s = .ok s7 ∧
      [s7.key_report 0, s7.key_report 1, s7.key_report 2,
       s7.key_report 3, s7.key_report 4, s7.key_report 5] = [k 0, k 1, k 2, k 3, k 4, k 5] ∧
      k 6 ∉ [s7.key_report 0, s7.key_report 1, s7.key_report 2,
             s7.key_report 3, s7.key_report 4, s7.key_report 5] := by
  have hne : ∀ n, (0 : Nat) ≠ k n := fun n => (hk0 n).symm
  have hz0 := hkr 0 (by omega)
  have hz1 := hkr 1 (by omega)
  have hz2 := hkr 2 (by omega)
  have hz3 := hkr 3 (by omega)
  have hz4 := hkr 4 (by omega)
  have hz5 := hkr 5 (by omega)
  obtain ⟨s1, h1, t1, r1, b1, k1⟩ := key_down_step s (id 0) (m1 0) (m2 0) (b 0) (k 0) 0 _
    (htr 0) (hk0 0) (hb 0) (by simp [hbs, hne]) (by omega) hz0 (by intro j hj; omega) hrx
  obtain ⟨s2, h2, t2, r2, b2, k2⟩ := key_down_step s1 (id 1) (m1 1) (m2 1) (b 1) (k 1) 1 _
    (by rw [t1]; exact htr 1) (hk0 1) (hb 1)
    (by simp [b1, Function.update_apply, hbinj.eq_iff, hbs, hne]) (by omega)
    (by simp [k1, Function.update_apply, hz1])
    (by intro j hj; interval_cases j; simp [k1, Function.update_apply, hk0]) r1
  rw [t1] at t2; rw [b1] at b2; rw [k1] at k2
  obtain ⟨s3, h3, t3, r3, b3, k3⟩ := key_down_step s2 (id 2) (m1 2) (m2 2) (b 2) (k 2) 2 _
    (by rw [t2]; exact htr 2) (hk0 2) (hb 2)
    (by simp [b2, Function.update_apply, hbinj.eq_iff, hbs, hne]) (by omega)
    (by simp [k2, Function.update_apply, hz2])
    (by intro j hj; interval_cases j <;> simp [k2, Function.update_apply, hk0]) r2
  rw [t2] at t3; rw [b2] at b3; rw [k2] at k3
  obtain ⟨s4, h4, t4, r4, b4, k4⟩ := key_down_step s3 (id 3) (m1 3) (m2 3) (b 3) (k 3) 3 _
    (by rw [t3]; exact htr 3) (hk0 3) (hb 3)
    (by simp [b3, Function.update_apply, hbinj.eq_iff, hbs, hne]) (by omega)
    (by simp [k3, Function.update_apply, hz3])
    (by intro j hj; interval_cases j <;> simp [k3, Function.update_apply, hk0]) r3
  rw [t3] at t4; rw [b3] at b4; rw [k3] at k4
  obtain ⟨s5, h5, t5, r5, b5, k5⟩ := key_down_step s4 (id 4) (m1 4) (m2 4) (b 4) (k 4) 4 _
    (by rw [t4]; exact htr 4) (hk0 4) (hb 4)
    (by simp [b4, Function.update_apply, hbinj.eq_iff, hbs, hne]) (by omega)
    (by simp [k4, Function.update_apply, hz4])
    (by intro j hj; interval_cases j <;> simp [k4, Function.update_apply, hk0]) r4
  rw [t4] at t5; rw [b4] at b5; rw [k4] at k5
  obtain ⟨s6, h6, t6, r6, b6, k6⟩ := key_down_step s5 (id 5) (m1 5) (m2 5) (b 5) (k 5) 5 _
    (by rw [t5]; exact htr 5) (hk0 5) (hb 5)
    (by simp [b5, Function.update_apply, hbinj.eq_iff, hbs, hne]) (by omega)
    (by simp [k5, Function.update_apply, hz5])
    (by intro j hj; interval_cases j <;> simp [k5, Function.update_apply, hk0]) r5
  rw [t5] at t6; rw [b5] at b6; rw [k5] at k6
  obtain ⟨s7, h7, _, _, _, k7⟩ := key_down_step_full s6 (id 6) (m1 6) (m2 6) (b 6) (k 6) _
    (by rw [t6]; exact htr 6) (hk0 6) (hb 6)
    (by simp [b6, Function.update_apply, hbinj.eq_iff, hbs, hne])
    (by intro j hj; interval_cases j <;> simp [k6, Function.update_apply, hk0]) r6
  rw [k6] at k7
  refine ⟨s7, ?_, ?_, ?_⟩
  · simp only [read_packets, h1, h2, h3, h4, h5, h6, h7]
  · simp [k7, Function.update_apply]
  · simp [k7, Function.update_apply, hkinj.eq_iff]

/-- C7, at KeyDown of the ids 0x41..0x47 on the buttons 1..7 from the initial
state: the report holds HID codes 4..9 and not 10. -/
theorem C7_rollover_witness :
    ∃ s7, read_packets 7 (initial_state sample_ids
        [3, 0, 0x41, 0, 0, 0, 1, 3, 0, 0x42, 0, 0, 0, 2, 3, 0, 0x43, 0, 0, 0, 3,
         3, 0, 0x44, 0, 0, 0, 4, 3, 0, 0x45, 0, 0, 0, 5, 3, 0, 0x46, 0, 0, 0, 6,
         3, 0, 0x47, 0, 0, 0, 7]) = .ok s7 ∧
      [s7.key_report 0, s7.key_report 1, s7.key_report 2,
       s7.key_report 3, s7.key_report 4, s7.key_report 5] = [4, 5, 6, 7, 8, 9] ∧
      10 ∉ [s7.key_report 0, s7.key_report 1, s7.key_report 2,
            s7.key_report 3, s7.key_report 4, s7.key_report 5] :=
  C7_rollover
    (initial_state sample_ids
        [3, 0, 0x41, 0, 0, 0, 1, 3, 0, 0x42, 0, 0, 0, 2, 3, 0, 0x43, 0, 0, 0, 3,
         3, 0, 0x44, 0, 0, 0, 4, 3, 0, 0x45, 0, 0, 0, 5, 3, 0, 0x46, 0, 0, 0, 6,
         3, 0, 0x47, 0, 0, 0, 7])
    (fun n => 0x41 + n.val) (fun _ => 0) (fun _ => 0) (fun n => 1 + n.val) (fun n => 4 + n.val) []
    (fun _ _ => rfl) (fun _ => rfl)
    (by intro n; fin_cases n <;> rfl)
    (by intro n; simp)
    (by intro a c h; ext; simpa using h)
    (by intro n; simp; omega)
    (by intro a c h; ext; simpa using h)
    rfl

/-! ## C9: MouseWheel -/

/-- What `handle_mouse_wheel` does with a complete packet of two signed 16-bit
deltas. -/
theorem mouse_wheel_result (s : State) (xDelta yDelta : Int) (rest : List Nat)
    (hxlo : -32768 ≤ xDelta) (hxhi : xDelta ≤ 32767)
    (hylo : -32768 ≤ yDelta) (hyhi : yDelta ≤ 32767)
    (hrx : s.rx = 5 ::
      (xDelta % 65536).toNat / 256 :: (xDelta % 65536).toNat % 256 ::
      (yDelta % 65536).toNat / 256 :: (yDelta % 65536).toNat % 256 :: rest) :
    read_packet s = .ok
      { s with
        rx := rest
        sent := s.sent ++
          [Report.mouse
            { buttons := s._buttons, x := s._x, y := s._y,
              wheel := to_int8 (Int.tdiv yDelta 120),
              pan := to_int8 (Int.tdiv xDelta 120) }] } := by
  obtain ⟨ux, hux⟩ : ∃ ux, ux = (xDelta % 65536).toNat := ⟨_, rfl⟩
  obtain ⟨uy, huy⟩ : ∃ uy, uy = (yDelta % 65536).toNat := ⟨_, rfl⟩
  rw [← hux, ← huy] at hrx
  have hwx : to_int16 (ux : Int) = xDelta := by rw [hux]; exact to_int16_wire xDelta hxlo hxhi
  have hwy : to_int16 (uy : Int) = yDelta := by rw [huy]; exact to_int16_wire yDelta hylo hyhi
  simp [read_packet, uart_read_bytes, hrx, handle_mouse_wheel, usb_hid_mouse_wheel,
    word_of_pair, hwx, hwy,
    to_int16_tdiv_120 xDelta hxlo hxhi, to_int16_tdiv_120 yDelta hylo hyhi]

/-- The cast to `int8_t` lands in -128..127 and differs from its argument by a
multiple of 256; it is the identity on -128..127. -/
theorem to_int8_narrows (v : Int) :
    -128 ≤ to_int8 v ∧ to_int8 v ≤ 127 ∧ (to_int8 v - v) % 256 = 0 ∧
    (-128 ≤ v → v ≤ 127 → to_int8 v = v) := by
  unfold to_int8
  split <;> refine ⟨?_, ?_, ?_, ?_⟩ <;> omega

/-- C9: a complete MouseWheel packet carrying the signed 16-bit xDelta and
yDelta big-endian hands exactly one mouse report to USB, with buttons, X and Y
those of MouseState, which stays as it was. Its wheel is the truncating
quotient yDelta / 120 narrowed to a signed 8-bit value: it lies in -128..127,
differs from the quotient by a multiple of 256 and equals the quotient when
that fits; its pan is xDelta / 120 narrowed the same way. -/
theorem C9_mouse_wheel (s : State) (xDelta yDelta : Int) (rest : List Nat)
    (hxlo : -32768 ≤ xDelta) (hxhi : xDelta ≤ 32767)
    (hylo : -32768 ≤ yDelta) (hyhi : yDelta ≤ 32767)
    (hrx : s.rx = 5 ::
      (xDelta % 65536).toNat / 256 :: (xDelta % 65536).toNat % 256 ::
      (yDelta % 65536).toNat / 256 :: (yDelta % 65536).toNat % 256 :: rest) :
    ∃ wheel pan : Int,
      read_packet s = .ok
        { s with
          rx := rest
          sent := s.sent ++
            [Report.mouse
              { buttons := s._buttons, x := s._x, y := s._y, wheel := wheel, pan := pan }] } ∧
      wheel = to_int8 (Int.tdiv yDelta 120) ∧ pan = to_int8 (Int.tdiv xDelta 120) ∧
      (-128 ≤ wheel ∧ wheel ≤ 127 ∧ (wheel - Int.tdiv yDelta 120) % 256 = 0) ∧
      (-128 ≤ pan ∧ pan ≤ 127 ∧ (pan - Int.tdiv xDelta 120) % 256 = 0) ∧
      (-128 ≤ Int.tdiv yDelta 120 → Int.tdiv yDelta 120 ≤ 127 → wheel = Int.tdiv yDelta 120) ∧
      (-128 ≤ Int.tdiv xDelta 120 → Int.tdiv xDelta 120 ≤ 127 → pan = Int.tdiv xDelta 120) := by
  have hw := to_int8_narrows (Int.tdiv yDelta 120)
  have hp := to_int8_narrows (Int.tdiv xDelta 120)
  exact ⟨_, _, mouse_wheel_result s xDelta yDelta rest hxlo hxhi hylo hyhi hrx, rfl, rfl,
    ⟨hw.1, hw.2.1, hw.2.2.1⟩, ⟨hp.1, hp.2.1, hp.2.2.1⟩, hw.2.2.2, hp.2.2.2⟩

/-- C9, at the input of the scenario, xDelta = 240 (bytes 0x00,0xF0) and
yDelta = -120 (bytes 0xFF,0x88), which give wheel = -1 and pan = 2, and at the
extreme deltas xDelta = -32768 (bytes 0x80,0x00) and yDelta = 32767 (bytes
0x7F,0xFF), whose quotients -273 and 273 do not fit and wrap to pan = -17 and
wheel = 17. -/
theorem C9_mouse_wheel_witness :
    read_packet (initial_state sample_ids [5, 0x00, 0xF0, 0xFF, 0x88]) = .ok
      { initial_state sample_ids [5, 0x00, 0xF0, 0xFF, 0x88] with
        rx := []
        sent := [] ++
          [Report.mouse { buttons := 0, x := 0, y := 0, wheel := -1, pan := 2 }] } ∧
    read_packet (initial_state sample_ids [5, 0x80, 0x00, 0x7F, 0xFF]) = .ok
      { initial_state sample_ids [5, 0x80, 0x00, 0x7F, 0xFF] with
        rx := []
        sent := [] ++
          [Report.mouse { buttons := 0, x := 0, y := 0, wheel := 17, pan := -17 }] } := by
  obtain ⟨wheel, pan, h, _, _, _, _, hwheel, hpan⟩ :=
    C9_mouse_wheel (initial_state sample_ids [5, 0x00, 0xF0, 0xFF, 0x88]) 240 (-120) []
      (by decide) (by decide) (by decide) (by decide) (by decide)
  obtain ⟨wheel1, pan1, h1, _, _, ⟨hw1lo, hw1hi, hw1mod⟩, ⟨hp1lo, hp1hi, hp1mod⟩, _, _⟩ :=
    C9_mouse_wheel (initial_state sample_ids [5, 0x80, 0x00, 0x7F, 0xFF]) (-32768) 32767 []
      (by decide) (by decide) (by decide) (by decide) (by decide)
  have hq : Int.tdiv (-120) 120 = -1 := by decide
  have hq1 : Int.tdiv 240 120 = 2 := by decide
  have hq2 : Int.tdiv 32767 120 = 273 := by decide
  have hq3 : Int.tdiv (-32768) 120 = -273 := by decide
  rw [hq] at hwheel
  rw [hq1] at hpan
  rw [hq2] at hw1mod
  rw [hq3] at hp1mod
  have e1 : wheel = -1 := hwheel (by decide) (by decide)
  have e2 : pan = 2 := hpan (by decide) (by decide)
  have e3 : wheel1 = 17 := by omega
  have e4 : pan1 = -17 := by omega
  rw [e1, e2] at h
  rw [e3, e4] at h1
  exact ⟨h, h1⟩

/-! ## C10: MouseLeave -/

/-- C10: MouseLeave at the position (X, Y) hands one mouse report at (X', Y) to
USB and stores (X', Y), where X' is 32767 when X is closer to 32767 than to 1
and 1 when X is closer to 1 than to 32767; Y and the button mask stay as they
were; X' is always one of the two bounds. -/
theorem C10_mouse_leave (s : State) (rest : List Nat) (hrx : s.rx = 7 :: rest) :
    ∃ nx, read_packet s = .ok
        { s with
          rx := rest
          _x := nx
          sent := s.sent ++
            [Report.mouse { buttons := s._buttons, x := nx, y := s._y, wheel := 0, pan := 0 }] } ∧
      (nx = POINTER_POS_MIN_VAL ∨ nx = POINTER_POS_MAX_VAL) ∧
      (|(s._x : Int) - 32767| < |(s._x : Int) - 1| → nx = 32767) ∧
      (|(s._x : Int) - 1| < |(s._x : Int) - 32767| → nx = 1) := by
  refine ⟨if s._x > POINTER_POS_MAX_VAL / 2 then POINTER_POS_MAX_VAL else POINTER_POS_MIN_VAL,
    ?_, ?_, ?_, ?_⟩
  · simp [read_packet, uart_read_bytes, hrx, usb_hid_move_to_pos]
  · split
    · exact Or.inr rfl
    · exact Or.inl rfl
  · intro h
    have hgt : s._x > POINTER_POS_MAX_VAL / 2 := by
      simp only [POINTER_POS_MAX_VAL]
      rcases abs_cases ((s._x : Int) - 32767) with ⟨h1, _⟩ | ⟨h1, _⟩ <;>
      rcases abs_cases ((s._x : Int) - 1) with ⟨h2, _⟩ | ⟨h2, _⟩ <;> omega
    rw [if_pos hgt]
    rfl
  · intro h
    have hle : ¬ s._x > POINTER_POS_MAX_VAL / 2 := by
      simp only [POINTER_POS_MAX_VAL]
      rcases abs_cases ((s._x : Int) - 32767) with ⟨h1, _⟩ | ⟨h1, _⟩ <;>
      rcases abs_cases ((s._x : Int) - 1) with ⟨h2, _⟩ | ⟨h2, _⟩ <;> omega
    rw [if_neg hle]
    rfl

/-- C10, at the inputs of the scenario: X = 20000 gives a move to X = 32767 and
X = 5000 gives a move to X = 1, Y = 300 kept in both. -/
theorem C10_mouse_leave_witness :
    (∃ nx, read_packet { initial_state sample_ids [7] with _x := 20000, _y := 300 } = .ok
        { initial_state sample_ids [7] with
          rx := []
          _x := nx
          _y := 300
          sent := [] ++
            [Report.mouse { buttons := 0, x := nx, y := 300, wheel := 0, pan := 0 }] } ∧
      nx = 32767) ∧
    (∃ nx, read_packet { initial_state sample_ids [7] with _x := 5000, _y := 300 } = .ok
        { initial_state sample_ids [7] with
          rx := []
          _x := nx
          _y := 300
          sent := [] ++
            [Report.mouse { buttons := 0, x := nx, y := 300, wheel := 0, pan := 0 }] } ∧
      nx = 1) := by
  obtain ⟨nx, h, _, hmax, _⟩ :=
    C10_mouse_leave { initial_state sample_ids [7] with _x := 20000, _y := 300 } [] rfl
  obtain ⟨nx1, h1, _, _, hmin⟩ :=
    C10_mouse_leave { initial_state sample_ids [7] with _x := 5000, _y := 300 } [] rfl
  exact ⟨⟨nx, h, hmax (by decide)⟩, ⟨nx1, h1, hmin (by decide)⟩⟩

/-! ## C11: short reads -/

/-- C11: when fewer bytes than the payload of the kind follow the tag of an
AbsMove, MouseDown, MouseUp, KeyDown, KeyUp or MouseWheel packet, the packet is
abandoned: no report is sent and MouseState, ButtonStateTable and
KeyboardReportState stay as they were; only the bytes that were there are
consumed. -/
theorem C11_short_read_abandons (s : State) (kind : Nat) (payload : List Nat)
    (hkind : kind < 6) (hshort : payload.length < payload_length kind)
    (hrx : s.rx = kind :: payload) :
    read_packet s = .ok { s with rx := [] } := by
  interval_cases kind <;> simp only [payload_length] at hshort <;>
    rcases payload with _ | ⟨a, _ | ⟨b, _ | ⟨c, _ | ⟨d, _ | ⟨e, _ | ⟨f, t⟩⟩⟩⟩⟩⟩ <;>
    first
    | (exfalso; simp only [List.length_cons] at hshort; omega)
    | simp [read_packet, uart_read_bytes, hrx, handle_abs, handle_mouse_down, handle_mouse_up,
        handle_key_down, handle_key_up, handle_mouse_wheel]

/-- C11, at the input of the scenario: AbsMove followed by a single byte. -/
theorem C11_short_read_witness :
    read_packet (initial_state sample_ids [0, 0x64]) = .ok
      { initial_state sample_ids [0, 0x64] with rx := [] } :=
  C11_short_read_abandons (initial_state sample_ids [0, 0x64]) 0 [0x64]
    (by decide) (by decide) rfl

/-! ## C12: unknown kinds -/

/-- C12: a kind byte 8..255 makes `read_packet` consume that one byte only, send
no report and leave every piece of state as it was. -/
theorem C12_unknown_kind_ignored (s : State) (kind : Nat) (rest : List Nat)
    (hlo : 8 ≤ kind) (_hhi : kind ≤ 255) (hrx : s.rx = kind :: rest) :
    read_packet s = .ok { s with rx := rest } := by
  obtain ⟨n, rfl⟩ : ∃ n, kind = n + 8 := ⟨kind - 8, by omega⟩
  simp [read_packet, uart_read_bytes, hrx]

/-- C12, at the kind byte 0xFF followed by an AbsMove packet, which stays in
the queue. -/
theorem C12_unknown_kind_witness :
    read_packet (initial_state sample_ids [0xFF, 0, 0, 1, 0, 2]) = .ok
      { initial_state sample_ids [0xFF, 0, 0, 1, 0, 2] with rx := [0, 0, 1, 0, 2] } :=
  C12_unknown_kind_ignored (initial_state sample_ids [0xFF, 0, 0, 1, 0, 2]) 0xFF [0, 0, 1, 0, 2]
    (by decide) (by decide) rfl

/-! ## C17: unmapped key -/

/-- C17: a complete KeyDown packet whose id lies in the translation table and
translates to 0 sends no report and leaves ButtonStateTable and
KeyboardReportState (and everything but the queue) as they were, whatever the
16-bit buttonId is. -/
theorem C17_unmapped_key_dropped (s : State) (id m1 m2 b : Nat) (rest : List Nat)
    (hid : id < 0x200) (hb : b < 65536) (hzero : synergy_to_hid s.table id = .ok 0)
    (hrx : s.rx = 3 :: id / 256 :: id % 256 :: m1 :: m2 :: b / 256 :: b % 256 :: rest) :
    read_packet s = .ok { s with rx := rest } := by
  rw [read_packet_key_down s id m1 m2 b rest (by omega) hb hrx, hzero]
  simp

/-- C17, at the id 0x3B (the semicolon, which the table does not map) on
button 1 from the initial state. -/
theorem C17_unmapped_key_witness :
    read_packet (initial_state sample_ids [3, 0x00, 0x3B, 0, 0, 0x00, 0x01]) = .ok
      { initial_state sample_ids [3, 0x00, 0x3B, 0, 0, 0x00, 0x01] with rx := [] } :=
  C17_unmapped_key_dropped (initial_state sample_ids [3, 0x00, 0x3B, 0, 0, 0x00, 0x01])
    0x3B 0 0 1 [] (by decide) (by decide) rfl rfl

/-! ## C13: the key table does not tell the cases apart -/

/-- C13: after `init_synergy_hid_key_table` every upper case letter translates
to the same code as its lower case form (k + 0x20) and every lower case letter
to the same code as its upper case form (k - 0x20), for every assignment of the
symbolic identifiers in their reserved range. -/
theorem C13_letters_case_insensitive (ids : KeyIds) (hres : ids.reserved) (rx : List Nat) :
    (∀ k, 0x41 ≤ k → k ≤ 0x5A →
      ∃ v, synergy_to_hid (initial_state ids rx).table k = .ok v ∧
        synergy_to_hid (initial_state ids rx).table (k + 0x20) = .ok v) ∧
    (∀ k, 0x61 ≤ k → k ≤ 0x7A →
      ∃ v, synergy_to_hid (initial_state ids rx).table k = .ok v ∧
        synergy_to_hid (initial_state ids rx).table (k - 0x20) = .ok v) := by
  have hpair : ∀ k, 0x41 ≤ k → k ≤ 0x5A →
      init_synergy_hid_key_table ids (fun _ => 0) k =
        init_synergy_hid_key_table ids (fun _ => 0) (k + 0x20) := by
    intro k hlo hhi
    by_cases hz : k = 0x5A
    · subst hz
      rw [(init_table_Z ids hres).1, (init_table_Z ids hres).2]
    · rw [init_table_upper ids hres k hlo (by omega),
        init_table_lower ids hres (k + 0x20) (by omega) (by omega)]
      congr 1
  constructor
  · intro k hlo hhi
    refine ⟨init_synergy_hid_key_table ids (fun _ => 0) k, ?_, ?_⟩
    · exact synergy_to_hid_in_table _ k (by omega)
    · rw [hpair k hlo hhi]
      exact synergy_to_hid_in_table _ (k + 0x20) (by omega)
  · intro k hlo hhi
    refine ⟨init_synergy_hid_key_table ids (fun _ => 0) k, ?_, ?_⟩
    · exact synergy_to_hid_in_table _ k (by omega)
    · have h := hpair (k - 0x20) (by omega) (by omega)
      rw [show k - 0x20 + 0x20 = k by omega] at h
      rw [← h]
      exact synergy_to_hid_in_table _ (k - 0x20) (by omega)

/-- C13, for the sample assignment of the symbolic identifiers: the letters
Q (0x51) and q (0x71) translate alike. -/
theorem C13_letters_witness :
    (∃ v, synergy_to_hid (initial_state sample_ids []).table 0x51 = .ok v ∧
        synergy_to_hid (initial_state sample_ids []).table (0x51 + 0x20) = .ok v) ∧
    (∃ v, synergy_to_hid (initial_state sample_ids []).table 0x71 = .ok v ∧
        synergy_to_hid (initial_state sample_ids []).table (0x71 - 0x20) = .ok v) :=
  ⟨(C13_letters_case_insensitive sample_ids (by decide) []).1 0x51 (by decide) (by decide),
   (C13_letters_case_insensitive sample_ids (by decide) []).2 0x71 (by decide) (by decide)⟩

/-! ## C14: the letters of the key table -/

/-- C14, evaluated where it fails: after `init_synergy_hid_key_table` the
letters A..Y and a..y translate to HID_KEY_A + offset, but Z (0x5A) and
z (0x7A) translate to 0, the code of no key, because both loops stop one letter
early. -/
theorem C14_letters_Z_unmapped (ids : KeyIds) (hres : ids.reserved) (rx : List Nat) :
    (∀ c, 0x41 ≤ c → c < 0x5A →
      synergy_to_hid (initial_state ids rx).table c = .ok (HID_KEY_A + (c - 0x41))) ∧
    (∀ c, 0x61 ≤ c → c < 0x7A →
      synergy_to_hid (initial_state ids rx).table c = .ok (HID_KEY_A + (c - 0x61))) ∧
    synergy_to_hid (initial_state ids rx).table 0x5A = .ok 0 ∧
    synergy_to_hid (initial_state ids rx).table 0x7A = .ok 0 := by
  refine ⟨?_, ?_, ?_, ?_⟩
  · intro c hlo hhi
    rw [synergy_to_hid_in_table _ c (by omega)]
    exact congrArg Except.ok (init_table_upper ids hres c hlo hhi)
  · intro c hlo hhi
    rw [synergy_to_hid_in_table _ c (by omega)]
    exact congrArg Except.ok (init_table_lower ids hres c hlo hhi)
  · rw [synergy_to_hid_in_table _ 0x5A (by decide)]
    exact congrArg Except.ok (init_table_Z ids hres).1
  · rw [synergy_to_hid_in_table _ 0x7A (by decide)]
    exact congrArg Except.ok (init_table_Z ids hres).2

/-- C14, for the sample assignment of the symbolic identifiers: Y translates to
HID_KEY_A + 24, Z and z translate to 0. -/
theorem C14_letters_witness :
    synergy_to_hid (initial_state sample_ids []).table 0x59 = .ok (HID_KEY_A + (0x59 - 0x41)) ∧
    synergy_to_hid (initial_state sample_ids []).table 0x5A = .ok 0 ∧
    synergy_to_hid (initial_state sample_ids []).table 0x7A = .ok 0 :=
  ⟨(C14_letters_Z_unmapped sample_ids (by decide) []).1 0x59 (by decide) (by decide),
   (C14_letters_Z_unmapped sample_ids (by decide) []).2.2.1,
   (C14_letters_Z_unmapped sample_ids (by decide) []).2.2.2⟩

/-! ## C15: the index into ButtonStateTable -/

/-- C15, evaluated where it fails: a complete KeyUp packet, and a complete
KeyDown packet of a mapped key, with a 16-bit buttonId of 0x200 or more reach
`server_button_state[button]` with that index, outside the 0x200 entries of the
array. -/
theorem C15_button_index_unchecked (s : State) (id m1 m2 b k : Nat) (rest : List Nat)
    (hlo : 0x200 ≤ b) (hhi : b < 65536)
    (hk : synergy_to_hid s.table id = .ok k) (hk0 : k ≠ 0) :
    (s.rx = 3 :: id / 256 :: id % 256 :: m1 :: m2 :: b / 256 :: b % 256 :: rest →
      read_packet s = .error Fault.button_state_index) ∧
    (s.rx = 4 :: id / 256 :: id % 256 :: m1 :: m2 :: b / 256 :: b % 256 :: rest →
      read_packet s = .error Fault.button_state_index) := by
  have hnot : ¬ b < 0x200 := by omega
  constructor
  · intro hrx
    have hid : id < 65536 := by have := (synergy_to_hid_ok_lt hk).1; omega
    rw [read_packet_key_down s id m1 m2 b rest hid hhi hrx, hk]
    simp [hk0, hnot]
  · intro hrx
    simp [read_packet, uart_read_bytes, hrx, handle_key_up, be16_pair b hhi, hnot]

/-- C15, at the buttonId 0x200 with the key id 0x41 from the initial state, for
KeyDown and for KeyUp. -/
theorem C15_button_index_witness :
    read_packet (initial_state sample_ids [3, 0x00, 0x41, 0, 0, 0x02, 0x00])
      = .error Fault.button_state_index ∧
    read_packet (initial_state sample_ids [4, 0x00, 0x41, 0, 0, 0x02, 0x00])
      = .error Fault.button_state_index :=
  ⟨(C15_button_index_unchecked
      (initial_state sample_ids [3, 0x00, 0x41, 0, 0, 0x02, 0x00]) 0x41 0 0 0x200 HID_KEY_A []
      (by decide) (by decide) rfl (by decide)).1 rfl,
   (C15_button_index_unchecked
      (initial_state sample_ids [4, 0x00, 0x41, 0, 0, 0x02, 0x00]) 0x41 0 0 0x200 HID_KEY_A []
      (by decide) (by decide) rfl (by decide)).2 rfl⟩

/-! ## C18: MouseUp -/

/-- C18: for a raw ordinal 1..5 and a button mask that fits its byte, MouseUp
clears bit (remap(raw) - 1) of the mask and keeps every other bit, leaves the
position alone and hands one mouse report with the new mask at that position to
USB. -/
theorem C18_mouse_up_clears_bit (s : State) (raw : Nat) (rest : List Nat)
    (hlo : 1 ≤ raw) (hhi : raw ≤ 5) (hmask : s._buttons < 256)
    (hrx : s.rx = 2 :: raw :: rest) :
    ∃ mask,
      read_packet s = .ok
        { s with
          rx := rest
          _buttons := mask
          sent := s.sent ++
            [Report.mouse { buttons := mask, x := s._x, y := s._y, wheel := 0, pan := 0 }] } ∧
      ∀ i, mask.testBit i =
        (s._buttons.testBit i && decide (i ≠ map_mouse_button raw - 1)) :=
  ⟨_, mouse_up_result s raw rest hlo hhi hrx,
    fun i => clear_bit_testBit s._buttons (map_mouse_button raw - 1) i hmask⟩

/-- C18, at MouseUp(2) with the mask 0b00101 (left and middle held): the middle
bit 2 goes, the left bit 0 stays. -/
theorem C18_mouse_up_witness :
    ∃ mask,
      read_packet { initial_state sample_ids [2, 2] with _buttons := 5 } = .ok
        { initial_state sample_ids [2, 2] with
          rx := []
          _buttons := mask
          sent := [] ++
            [Report.mouse { buttons := mask, x := 0, y := 0, wheel := 0, pan := 0 }] } ∧
      mask.testBit 0 = true ∧ mask.testBit 2 = false := by
  obtain ⟨mask, h, hbits⟩ :=
    C18_mouse_up_clears_bit { initial_state sample_ids [2, 2] with _buttons := 5 } 2 []
      (by decide) (by decide) (by decide) rfl
  refine ⟨mask, h, ?_, ?_⟩
  · rw [hbits 0]; decide
  · rw [hbits 2]; decide

/-! ## C20: a key dropped for rollover stays recorded -/

/-- C20 as stated fails when the later KeyUp is for the same buttonId: from the
initial state, KeyDown of the ids 0x41..0x46 on the buttons 2..7 fills the six
slots with HID_KEY_A first; KeyDown(0x41, *, 1) is then dropped for rollover and
recorded for button 1; KeyUp of button 1 frees slot 0 (which holds HID_KEY_A)
and clears the record; the same KeyDown(0x41, *, 1) now places HID_KEY_A in
slot 0. -/
theorem C20_counterexample :
    ∃ s6 s7 s8 s9,
      read_packets 6 (initial_state sample_ids
        [3, 0, 0x41, 0, 0, 0, 2, 3, 0, 0x42, 0, 0, 0, 3, 3, 0, 0x43, 0, 0, 0, 4,
         3, 0, 0x44, 0, 0, 0, 5, 3, 0, 0x45, 0, 0, 0, 6, 3, 0, 0x46, 0, 0, 0, 7,
         3, 0, 0x41, 0, 0, 0, 1, 4, 0, 0x41, 0, 0, 0, 1, 3, 0, 0x41, 0, 0, 0, 1]) = .ok s6 ∧
      (∀ i, i < 6 → s6.key_report i ≠ 0) ∧
      synergy_to_hid s6.table 0x41 = .ok HID_KEY_A ∧
      s6.server_button_state 1 ≠ HID_KEY_A ∧
      s6.rx = [3, 0, 0x41, 0, 0, 0, 1, 4, 0, 0x41, 0, 0, 0, 1, 3, 0, 0x41, 0, 0, 0, 1] ∧
      read_packet s6 = .ok s7 ∧
      s7.key_report = s6.key_report ∧
      s7.server_button_state 1 = HID_KEY_A ∧
      read_packet s7 = .ok s8 ∧
      s8.key_report 0 = 0 ∧
      read_packet s8 = .ok s9 ∧
      s9.key_report 0 = HID_KEY_A := by
  obtain ⟨s6, h6, t6, r6, b6, k6⟩ := six_key_downs
    (initial_state sample_ids
        [3, 0, 0x41, 0, 0, 0, 2, 3, 0, 0x42, 0, 0, 0, 3, 3, 0, 0x43, 0, 0, 0, 4,
         3, 0, 0x44, 0, 0, 0, 5, 3, 0, 0x45, 0, 0, 0, 6, 3, 0, 0x46, 0, 0, 0, 7,
         3, 0, 0x41, 0, 0, 0, 1, 4, 0, 0x41, 0, 0, 0, 1, 3, 0, 0x41, 0, 0, 0, 1])
    (fun n => 0x41 + n.val) (fun _ => 0) (fun _ => 0) (fun n => 2 + n.val)
    (fun n => HID_KEY_A + n.val)
    [3, 0, 0x41, 0, 0, 0, 1, 4, 0, 0x41, 0, 0, 0, 1, 3, 0, 0x41, 0, 0, 0, 1]
    (fun _ _ => rfl) (fun _ => rfl)
    (by intro n; fin_cases n <;> rfl)
    (by intro n; simp [HID_KEY_A])
    (by intro n; simp; omega)
    (by intro a c h; ext; simpa using h)
    rfl
  have hk6 : synergy_to_hid s6.table 0x41 = .ok HID_KEY_A := by rw [t6]; rfl
  have hrec6 : s6.server_button_state 1 ≠ HID_KEY_A := by
    rw [b6]
    decide
  have hfull6 : ∀ i, i < 6 → s6.key_report i ≠ 0 := by
    intro i hi
    rw [k6]
    interval_cases i <;> decide
  have hslot0 : s6.key_report 0 = HID_KEY_A := by
    rw [k6]
    decide
  obtain ⟨s7, h7, t7, r7, b7, k7⟩ := key_down_step_full s6 0x41 0 0 1 HID_KEY_A _
    hk6 (by decide) (by decide) hrec6 hfull6 r6
  obtain ⟨s8, h8, t8, r8, b8, k8⟩ := key_up_step s7 0 0x41 0 0 1 _ (by decide) r7
  have hkey7 : s7.server_button_state 1 = HID_KEY_A := by rw [b7, Function.update_same]
  have hloop8 := key_up_loop_first_match HID_KEY_A s7.key_report 6 0 0 (by decide)
    (by rw [k7]; exact hslot0) (fun j hj => absurd hj (Nat.not_lt_zero j))
  rw [hkey7, hloop8] at k8
  have hfree8 : s8.key_report 0 = 0 := by rw [k8]; exact Function.update_same _ _ _
  obtain ⟨s9, h9, _, _, _, k9⟩ := key_down_step s8 0x41 0 0 1 HID_KEY_A 0 _
    (by rw [t8, t7]; exact hk6) (by decide) (by decide)
    (by rw [b8, Function.update_same]; decide) (by decide) hfree8
    (by intro j hj; omega) r8
  exact ⟨s6, s7, s8, s9, h6, hfull6, hk6, hrec6, r6, h7, k7, hkey7, h8, hfree8, h9,
    by rw [k9, Function.update_same]⟩

/-- C20, amended: with the six slots occupied, a KeyDown(id, *, b) of a new
non-zero keycode k (b < 0x200) leaves KeyboardReportState as it was but records
k in ButtonStateTable[b]; after a KeyUp of another buttonId b2 ≠ b has freed a
slot, the same KeyDown(id, *, b) is dropped as already pressed: it changes no
slot, sends no report, and k, absent from the slots before, is still absent. -/
theorem C20_rollover_key_stays_recorded (s : State)
    (id m1 m2 m3 m4 b k u1 u2 u3 u4 b2 : Nat) (rest : List Nat)
    (hk : synergy_to_hid s.table id = .ok k) (hk0 : k ≠ 0) (hb : b < 0x200)
    (hnew : s.server_button_state b ≠ k)
    (hfull : ∀ i, i < 6 → s.key_report i ≠ 0)
    (hb2 : b2 < 0x200) (hne : b2 ≠ b)
    (hheld : ∃ i, i < 6 ∧ s.key_report i = s.server_button_state b2)
    (hrx : s.rx =
      3 :: id / 256 :: id % 256 :: m1 :: m2 :: b / 256 :: b % 256 ::
      4 :: u1 :: u2 :: u3 :: u4 :: b2 / 256 :: b2 % 256 ::
      3 :: id / 256 :: id % 256 :: m3 :: m4 :: b / 256 :: b % 256 :: rest) :
    ∃ s1 s2 s3,
      read_packet s = .ok s1 ∧
      s1.key_report = s.key_report ∧
      s1.server_button_state b = k ∧
      read_packet s1 = .ok s2 ∧
      (∃ i, i < 6 ∧ s2.key_report i = 0) ∧
      read_packet s2 = .ok s3 ∧
      s3.key_report = s2.key_report ∧
      s3.sent = s2.sent ∧
      s3.server_button_state b = k ∧
      ((∀ i, i < 6 → s.key_report i ≠ k) → ∀ i, i < 6 → s3.key_report i ≠ k) := by
  have hid : id < 65536 := by have := (synergy_to_hid_ok_lt hk).1; omega
  have h1 := key_down_rollover s id m1 m2 b k _ hk hk0 hb hnew hfull hrx
  have h2 := read_packet_key_up
    { s with
      rx := 4 :: u1 :: u2 :: u3 :: u4 :: b2 / 256 :: b2 % 256 ::
            3 :: id / 256 :: id % 256 :: m3 :: m4 :: b / 256 :: b % 256 :: rest
      server_button_state := Function.update s.server_button_state b k
      sent := s.sent ++ [Report.keyboard 0 (report_bytes s.key_report)] }
    u1 u2 u3 u4 b2 _ hb2 rfl
  have hsame : Function.update s.server_button_state b k b2 = s.server_button_state b2 :=
    Function.update_noteq hne k s.server_button_state
  simp only [hsame] at h2
  have h3 := read_packet_key_down
    { s with
      rx := 3 :: id / 256 :: id % 256 :: m3 :: m4 :: b / 256 :: b % 256 :: rest
      server_button_state :=
        Function.update (Function.update s.server_button_state b k) b2 0
      key_report := key_up_loop (s.server_button_state b2) s.key_report 0 6
      sent := (s.sent ++ [Report.keyboard 0 (report_bytes s.key_report)]) ++
        [Report.keyboard 0 [0, 0, 0, 0, 0, 0]] }
    id m3 m4 b rest hid (by omega) rfl
  have hrec : Function.update (Function.update s.server_button_state b k) b2 0 b = k := by
    rw [Function.update_noteq (Ne.symm hne), Function.update_same]
  simp only [hk, hk0, if_false, hb, not_true_eq_false, hrec, if_true] at h3
  obtain ⟨i0, hi0, hmatch⟩ := hheld
  rcases key_up_loop_cases (s.server_button_state b2) s.key_report 6 0 with
    ⟨hnone, _⟩ | ⟨d, hd, _, _, hloop⟩
  · exact absurd hmatch (by simpa using hnone i0 hi0)
  · simp only [Nat.zero_add] at hloop
    refine ⟨_, _, _, h1, rfl, Function.update_same _ _ _, h2, ⟨d, hd, ?_⟩, h3, rfl, rfl,
      hrec, ?_⟩
    · show key_up_loop (s.server_button_state b2) s.key_report 0 6 d = 0
      rw [hloop, Function.update_same]
    · intro habsent i hi
      show key_up_loop (s.server_button_state b2) s.key_report 0 6 i ≠ k
      rw [hloop, Function.update_apply]
      split
      · exact Ne.symm hk0
      · exact habsent i hi

/-- C20 amended, at a full report [10..15] whose first key is recorded for button 2:
KeyDown(0x41, 0, 1), KeyUp of button 2, KeyDown(0x41, 0, 1) again. -/
theorem C20_rollover_witness :
    ∃ s1 s2 s3,
      read_packet
        { initial_state sample_ids
            [3, 0, 0x41, 0, 0, 0, 1, 4, 0, 0x4B, 0, 0, 0, 2, 3, 0, 0x41, 0, 0, 0, 1] with
          key_report := fun i => 10 + i
          server_button_state := fun b => if b = 2 then 10 else 0 } = .ok s1 ∧
      s1.key_report = (fun i => 10 + i) ∧
      s1.server_button_state 1 = HID_KEY_A ∧
      read_packet s1 = .ok s2 ∧
      (∃ i, i < 6 ∧ s2.key_report i = 0) ∧
      read_packet s2 = .ok s3 ∧
      s3.key_report = s2.key_report ∧
      s3.sent = s2.sent ∧
      s3.server_button_state 1 = HID_KEY_A ∧
      ((∀ i, i < 6 → (fun i => 10 + i) i ≠ HID_KEY_A) → ∀ i, i < 6 → s3.key_report i ≠ HID_KEY_A) :=
  C20_rollover_key_stays_recorded
    { initial_state sample_ids
        [3, 0, 0x41, 0, 0, 0, 1, 4, 0, 0x4B, 0, 0, 0, 2, 3, 0, 0x41, 0, 0, 0, 1] with
      key_report := fun i => 10 + i
      server_button_state := fun b => if b = 2 then 10 else 0 }
    0x41 0 0 0 0 1 HID_KEY_A 0 0x4B 0 0 2 []
    rfl (by decide) (by decide) (by decide) (fun i _ => by simp)
    (by decide) (by decide) ⟨0, by decide, rfl⟩ rfl

/-! ## C19: MouseState and the mouse reports -/

/-- C19: in every run of packets, from the initial state or any other, each
packet either sends exactly one mouse report, whose X, Y and buttons are the
stored X, Y and mask after that packet, or sends no mouse report and leaves the
stored X, Y and mask as they were. -/
theorem C19_mouse_state_mirrors_reports (n : Nat) (s sn : State)
    (hrun : read_packets n s = .ok sn) (i : Nat) (hi : i < n) :
    ∃ si si1,
      read_packets i s = .ok si ∧ read_packet si = .ok si1 ∧
      read_packets (i + 1) s = .ok si1 ∧
      ∃ new, si1.sent = si.sent ++ new ∧
        (((∀ r, Report.mouse r ∉ new) ∧
            si1._x = si._x ∧ si1._y = si._y ∧ si1._buttons = si._buttons) ∨
          ∃ r, new = [Report.mouse r] ∧
            r.x = si1._x ∧ r.y = si1._y ∧ r.buttons = si1._buttons) := by
  induction i generalizing n s with
  | zero =>
    obtain ⟨m, rfl⟩ : ∃ m, n = m + 1 := ⟨n - 1, by omega⟩
    obtain ⟨s1, h1, _⟩ := read_packets_succ_ok m s sn hrun
    refine ⟨s, s1, rfl, h1, ?_, read_packet_mouse_mirror s s1 h1⟩
    rw [read_packets_succ_of_ok 0 s s1 h1]
    rfl
  | succ j ih =>
    obtain ⟨m, rfl⟩ : ∃ m, n = m + 1 := ⟨n - 1, by omega⟩
    obtain ⟨s1, h1, hrest⟩ := read_packets_succ_ok m s sn hrun
    obtain ⟨si, si1, hsi, hstep, hsi1, hmirror⟩ := ih m s1 hrest (by omega)
    refine ⟨si, si1, ?_, hstep, ?_, hmirror⟩
    · rw [read_packets_succ_of_ok j s s1 h1]
      exact hsi
    · rw [read_packets_succ_of_ok (j + 1) s s1 h1]
      exact hsi1

/-- C19, at the second packet of the run AbsMove(100, 200), MouseDown(1) from
the initial state. -/
theorem C19_mouse_state_witness :
    ∃ si si1,
      read_packets 1 (initial_state sample_ids [0, 0x00, 0x64, 0x00, 0xC8, 1, 1]) = .ok si ∧
      read_packet si = .ok si1 ∧
      read_packets (1 + 1) (initial_state sample_ids [0, 0x00, 0x64, 0x00, 0xC8, 1, 1])
        = .ok si1 ∧
      ∃ new, si1.sent = si.sent ++ new ∧
        (((∀ r, Report.mouse r ∉ new) ∧
            si1._x = si._x ∧ si1._y = si._y ∧ si1._buttons = si._buttons) ∨
          ∃ r, new = [Report.mouse r] ∧
            r.x = si1._x ∧ r.y = si1._y ∧ r.buttons = si1._buttons) :=
  C19_mouse_state_mirrors_reports 2
    (initial_state sample_ids [0, 0x00, 0x64, 0x00, 0xC8, 1, 1])
    (usb_hid_mouse_button 1
      (usb_hid_move_to_pos 100 200 (initial_state sample_ids [])))
    rfl 1 (by decide)

/-! ## C16: a keycode in at most one slot -/

/-- C16 as stated fails: KeyDown of the id 0x41 on button 1 and then on
button 2 puts HID_KEY_A into slot 0 and into slot 1; KeyDown of 0x41, of 0x42
and of 0x41 again on the one button 1 puts HID_KEY_A into slot 0 and slot 2. -/
theorem C16_counterexample :
    (∃ s2, read_packets 2 (initial_state sample_ids
        [3, 0, 0x41, 0, 0, 0, 1, 3, 0, 0x41, 0, 0, 0, 2]) = .ok s2 ∧
      s2.key_report 0 = HID_KEY_A ∧ s2.key_report 1 = HID_KEY_A ∧ HID_KEY_A ≠ 0) ∧
    (∃ s3, read_packets 3 (initial_state sample_ids
        [3, 0, 0x41, 0, 0, 0, 1, 3, 0, 0x42, 0, 0, 0, 1, 3, 0, 0x41, 0, 0, 0, 1]) = .ok s3 ∧
      s3.key_report 0 = HID_KEY_A ∧ s3.key_report 2 = HID_KEY_A) := by
  refine ⟨⟨_, rfl, rfl, rfl, by decide⟩, ?_⟩
  obtain ⟨s1, h1, t1, r1, b1, k1⟩ := key_down_step
    (initial_state sample_ids
      [3, 0, 0x41, 0, 0, 0, 1, 3, 0, 0x42, 0, 0, 0, 1, 3, 0, 0x41, 0, 0, 0, 1])
    0x41 0 0 1 HID_KEY_A 0 _ rfl (by decide) (by decide) (by decide) (by decide) rfl
    (by intro j hj; omega) rfl
  obtain ⟨s2, h2, t2, r2, b2, k2⟩ := key_down_step s1 0x42 0 0 1 (HID_KEY_A + 1) 1 _
    (by rw [t1]; rfl) (by decide) (by decide)
    (by rw [b1, Function.update_same]; decide) (by decide)
    (by rw [k1]; rfl)
    (by intro j hj; interval_cases j; rw [k1, Function.update_same]; decide) r1
  obtain ⟨s3, h3, _, _, _, k3⟩ := key_down_step s2 0x41 0 0 1 HID_KEY_A 2 _
    (by rw [t2, t1]; rfl) (by decide) (by decide)
    (by rw [b2, Function.update_same]; decide) (by decide)
    (by rw [k2, k1]; rfl)
    (by intro j hj; interval_cases j <;> rw [k2, k1] <;> decide) r2
  refine ⟨s3, ?_, ?_, ?_⟩
  · simp only [read_packets, h1, h2, h3]
  · rw [k3, k2, k1]; rfl
  · rw [k3, Function.update_same]

/-- C16, amended: every sequence of complete KeyDown and KeyUp packets
(buttonIds < 0x200, KeyDown ids in the table) runs from the initial state
without a fault, and no non-zero keycode occupies more than one of the six
slots in any state along the run exactly when no KeyDown of the run is taken as
a new press, with an empty slot at hand, while its keycode already occupies a
slot. -/
theorem C16_slot_uniqueness (ids : KeyIds) (ps : List KeyPacket) (rest : List Nat)
    (hps : ∀ p ∈ ps, p.button < 0x200 ∧ (p.up = false → p.id < 0x200)) :
    (∀ j, j ≤ ps.length →
      ∃ sj, read_packets j (initial_state ids (key_packets_bytes ps ++ rest)) = .ok sj) ∧
    ((∀ j p tail sj, ps.drop j = p :: tail →
        read_packets j (initial_state ids (key_packets_bytes ps ++ rest)) = .ok sj →
        ¬ places_duplicate sj p) ↔
      (∀ j sj, j ≤ ps.length →
        read_packets j (initial_state ids (key_packets_bytes ps ++ rest)) = .ok sj →
        slots_unique sj.key_report)) :=
  ⟨key_run_total ps _ rest rfl hps,
   ⟨run_keeps (fun s => slots_unique s.key_report) places_duplicate key_packet_unique_step
      ps _ rest rfl hps (initial_slots_unique ids _),
    run_breaks (fun s => slots_unique s.key_report) places_duplicate key_packet_unique_step
      ps _ rest rfl hps⟩⟩

/-- C16 amended, at KeyDown(0x41), KeyUp, KeyDown(0x42) on the one button 1: the
run places no duplicate, so no keycode occupies two slots in any of its
states. -/
theorem C16_slot_uniqueness_witness :
    (∀ p ∈ ([⟨false, 0x41, 0, 0, 1⟩, ⟨true, 0x41, 0, 0, 1⟩, ⟨false, 0x42, 0, 0, 1⟩] : List KeyPacket),
      p.button < 0x200 ∧ (p.up = false → p.id < 0x200)) ∧
    (∀ j, j ≤ 3 → ∃ sj, read_packets j (initial_state sample_ids
        [3, 0, 0x41, 0, 0, 0, 1, 4, 0, 0x41, 0, 0, 0, 1, 3, 0, 0x42, 0, 0, 0, 1]) = .ok sj) ∧
    (∀ j sj, j ≤ 3 →
      read_packets j (initial_state sample_ids
        [3, 0, 0x41, 0, 0, 0, 1, 4, 0, 0x41, 0, 0, 0, 1, 3, 0, 0x42, 0, 0, 0, 1]) = .ok sj →
      slots_unique sj.key_report) := by
  have hps : ∀ p ∈ ([⟨false, 0x41, 0, 0, 1⟩, ⟨true, 0x41, 0, 0, 1⟩, ⟨false, 0x42, 0, 0, 1⟩] : List KeyPacket),
      p.button < 0x200 ∧ (p.up = false → p.id < 0x200) := by
    intro p hp
    simp only [List.mem_cons, List.mem_singleton, List.not_mem_nil, or_false] at hp
    rcases hp with rfl | rfl | rfl
    · exact ⟨by decide, fun _ => by decide⟩
    · exact ⟨by decide, fun h => absurd h (by decide)⟩
    · exact ⟨by decide, fun _ => by decide⟩
  have h := C16_slot_uniqueness sample_ids
    [⟨false, 0x41, 0, 0, 1⟩, ⟨true, 0x41, 0, 0, 1⟩, ⟨false, 0x42, 0, 0, 1⟩] [] hps
  refine ⟨hps, h.1, h.2.1 ?_⟩
  intro j p tail sj hd hr hdup
  obtain ⟨_, s2, _, _, h2, _, hkr2⟩ := press_release_states
  obtain ⟨hup, hk0, _, ⟨i, _, hik⟩, _⟩ := hdup
  match j, hd, hr with
  | 0, _, hr =>
    rw [read_packets_zero _ sj hr] at hik hk0
    exact hk0 hik.symm
  | 1, hd, _ =>
    have hd1 : (⟨true, 0x41, 0, 0, 1⟩ : KeyPacket) :: [⟨false, 0x42, 0, 0, 1⟩] = p :: tail :=
      hd
    injection hd1 with hp _
    rw [← hp] at hup
    cases hup
  | 2, _, hr =>
    have hs : (Except.ok s2 : Except Fault State) = Except.ok sj := h2.symm.trans hr
    injection hs with hs
    rw [← hs] at hik hk0
    rw [hkr2 i] at hik
    exact hk0 hik.symm
  | n + 3, hd, _ =>
    simp at hd

/-! ## C21: keys in the report and the buttons that record them -/

/-- C21 as stated fails: KeyDown of the id 0x41 and then of the id 0x42 on the
one button 1 leaves HID_KEY_A in slot 0 while no buttonId records HID_KEY_A any
more (button 1 records HID_KEY_A + 1). -/
theorem C21_counterexample :
    ∃ s2, read_packets 2 (initial_state sample_ids
        [3, 0, 0x41, 0, 0, 0, 1, 3, 0, 0x42, 0, 0, 0, 1]) = .ok s2 ∧
      s2.key_report 0 = HID_KEY_A ∧ HID_KEY_A ≠ 0 ∧
      ∀ b, s2.server_button_state b ≠ HID_KEY_A := by
  obtain ⟨s1, h1, t1, r1, b1, k1⟩ := key_down_step
    (initial_state sample_ids [3, 0, 0x41, 0, 0, 0, 1, 3, 0, 0x42, 0, 0, 0, 1])
    0x41 0 0 1 HID_KEY_A 0 _ rfl (by decide) (by decide) (by decide) (by decide) rfl
    (by intro j hj; omega) rfl
  obtain ⟨s2, h2, _, _, b2, k2⟩ := key_down_step s1 0x42 0 0 1 (HID_KEY_A + 1) 1 _
    (by rw [t1]; rfl) (by decide) (by decide)
    (by rw [b1, Function.update_same]; decide) (by decide)
    (by rw [k1]; rfl)
    (by intro j hj; interval_cases j; rw [k1, Function.update_same]; decide) r1
  refine ⟨s2, ?_, ?_, by decide, ?_⟩
  · simp only [read_packets, h1, h2]
  · rw [k2, k1]; rfl
  · intro b
    rw [b2, b1]
    by_cases hb : b = 1
    · rw [hb, Function.update_same]
      decide
    · rw [Function.update_noteq hb, Function.update_noteq hb]
      show (0 : Nat) ≠ HID_KEY_A
      decide

/-- C21, amended: every sequence of complete KeyDown and KeyUp packets
(buttonIds < 0x200, KeyDown ids in the table) runs from the initial state
without a fault, and every non-zero slot of KeyboardReportState equals
ButtonStateTable[b] for some buttonId b < 0x200 in every state along the run
exactly when no packet of the run takes away the only record of a keycode that
stays in a slot (a KeyDown taken as a new press on the only button that records
a keycode in a slot, or a KeyUp of the only button that records a keycode in two
slots); and a KeyUp for a button that records the keycode of a slot empties a
slot that holds this keycode. -/
theorem C21_no_orphaned_keys (ids : KeyIds) (ps : List KeyPacket) (rest : List Nat)
    (hps : ∀ p ∈ ps, p.button < 0x200 ∧ (p.up = false → p.id < 0x200)) :
    (∀ j, j ≤ ps.length →
      ∃ sj, read_packets j (initial_state ids (key_packets_bytes ps ++ rest)) = .ok sj) ∧
    ((∀ j p tail sj, ps.drop j = p :: tail →
        read_packets j (initial_state ids (key_packets_bytes ps ++ rest)) = .ok sj →
        ¬ orphans_key sj p) ↔
      (∀ j sj, j ≤ ps.length →
        read_packets j (initial_state ids (key_packets_bytes ps ++ rest)) = .ok sj →
        ∀ i, i < 6 → sj.key_report i ≠ 0 →
          ∃ b, b < 0x200 ∧ sj.server_button_state b = sj.key_report i)) ∧
    (∀ (sj : State) (b i i1 i2 m1 m2 : Nat) (tail : List Nat),
      b < 0x200 → i < 6 → sj.server_button_state b = sj.key_report i →
      ∃ s1 d,
        read_packet { sj with rx := 4 :: i1 :: i2 :: m1 :: m2 :: b / 256 :: b % 256 :: tail }
          = .ok s1 ∧
        d < 6 ∧ sj.key_report d = sj.key_report i ∧
        s1.key_report = Function.update sj.key_report d 0) :=
  ⟨key_run_total ps _ rest rfl hps,
   ⟨run_keeps slots_recorded orphans_key key_packet_recorded_step
      ps _ rest rfl hps (initial_slots_recorded ids _),
    run_breaks slots_recorded orphans_key key_packet_recorded_step
      ps _ rest rfl hps⟩,
   fun _ b i i1 i2 m1 m2 tail hb hi hr =>
    key_up_releases _ i1 i2 m1 m2 b i tail hb hi hr rfl⟩

/-- C21 amended, at KeyDown(0x41), KeyUp, KeyDown(0x42) on the one button 1,
where the second KeyDown finds the record of its button cleared: no packet of
the run takes away the only record of a held key, so in each of its states
every key in the report is recorded for a button. -/
theorem C21_no_orphaned_keys_witness :
    (∀ p ∈ ([⟨false, 0x41, 0, 0, 1⟩, ⟨true, 0x41, 0, 0, 1⟩, ⟨false, 0x42, 0, 0, 1⟩] : List KeyPacket),
      p.button < 0x200 ∧ (p.up = false → p.id < 0x200)) ∧
    (∀ j, j ≤ 3 → ∃ sj, read_packets j (initial_state sample_ids
        [3, 0, 0x41, 0, 0, 0, 1, 4, 0, 0x41, 0, 0, 0, 1, 3, 0, 0x42, 0, 0, 0, 1]) = .ok sj) ∧
    (∀ j sj, j ≤ 3 →
      read_packets j (initial_state sample_ids
        [3, 0, 0x41, 0, 0, 0, 1, 4, 0, 0x41, 0, 0, 0, 1, 3, 0, 0x42, 0, 0, 0, 1]) = .ok sj →
      ∀ i, i < 6 → sj.key_report i ≠ 0 →
        ∃ b, b < 0x200 ∧ sj.server_button_state b = sj.key_report i) := by
  have hps : ∀ p ∈ ([⟨false, 0x41, 0, 0, 1⟩, ⟨true, 0x41, 0, 0, 1⟩, ⟨false, 0x42, 0, 0, 1⟩] : List KeyPacket),
      p.button < 0x200 ∧ (p.up = false → p.id < 0x200) := by
    intro p hp
    simp only [List.mem_cons, List.mem_singleton, List.not_mem_nil, or_false] at hp
    rcases hp with rfl | rfl | rfl
    · exact ⟨by decide, fun _ => by decide⟩
    · exact ⟨by decide, fun h => absurd h (by decide)⟩
    · exact ⟨by decide, fun _ => by decide⟩
  have h := C21_no_orphaned_keys sample_ids
    [⟨false, 0x41, 0, 0, 1⟩, ⟨true, 0x41, 0, 0, 1⟩, ⟨false, 0x42, 0, 0, 1⟩] [] hps
  refine ⟨hps, h.1, h.2.1.1 ?_⟩
  intro j p tail sj hd hr horph
  obtain ⟨s1, s2, h1, hkr1, h2, hbs2, _⟩ := press_release_states
  obtain ⟨hbnz, _, hcase⟩ := horph
  match j, hd, hr with
  | 0, _, hr =>
    rw [read_packets_zero _ sj hr] at hbnz
    exact hbnz rfl
  | 1, hd, hr =>
    have hd1 : (⟨true, 0x41, 0, 0, 1⟩ : KeyPacket) :: [⟨false, 0x42, 0, 0, 1⟩] = p :: tail :=
      hd
    injection hd1 with hp _
    have hs : (Except.ok s1 : Except Fault State) = Except.ok sj := h1.symm.trans hr
    injection hs with hs
    rcases hcase with h | h
    · have hup := h.1
      rw [← hp] at hup
      cases hup
    · obtain ⟨i, e, _, _, hie, hik, hek⟩ := h.2
      rw [← hs] at hik hek hbnz
      by_cases hi0 : i = 0
      · have he0 : e ≠ 0 := fun h0 => hie (hi0.trans h0.symm)
        rw [hkr1 e he0] at hek
        exact hbnz hek.symm
      · rw [hkr1 i hi0] at hik
        exact hbnz hik.symm
  | 2, _, hr =>
    have hs : (Except.ok s2 : Except Fault State) = Except.ok sj := h2.symm.trans hr
    injection hs with hs
    rw [← hs] at hbnz
    exact hbnz (hbs2 _)
  | n + 3, hd, _ =>
    simp at hd

end HardwareKvm
